import Mathlib

/-!
# gou logging dispatcher: a shallow embedding of `log.go`

The package keeps its configuration in package-level variables.  They are
gathered in `State`, every Go function becomes a function `State → State`,
and the calls made on the sinks (`(*log.Logger).Output`, `LoggerCustom.Log`)
are appended to `State.trace` in the order in which they happen.

Library functions of `fmt` and `strings` that take caller-chosen operands
are the fields of `Lib`; the development holds for every such library.
`goLib` is a concrete one for the fragment of `fmt` with the verbs
`%s %d %v %%`, used to evaluate the definitions on concrete inputs.
-/

namespace Gou

/-! ## Machine integers and levels -/

/-- Go `int` is 64 bits wide here; `wrapInt` is the two-complement wrap-around of
an arithmetic result. -/
def wrapInt (x : Int) : Int := (x + 2 ^ 63) % 2 ^ 64 - 2 ^ 63

def NOLOGGING : Int := -1
def FATAL : Int := 0
def ERROR : Int := 1
def WARN : Int := 2
def INFO : Int := 3
def DEBUG : Int := 4

/-! ## Operands and library functions -/

/-- An operand of a variadic `...interface{}` parameter. -/
inductive Val where
  | str (s : String)
  | int (i : Int)
  deriving DecidableEq, Repr

/-- The library functions the package calls with caller-chosen operands:
`fmt.Sprint`, `fmt.Sprintf`, the text of `fmt.Errorf(...).Error()` and
`strings.ToLower`. -/
structure Lib where
  Sprint : List Val → String
  Sprintf : String → List Val → String
  Errorf : String → List Val → String
  ToLower : String → String

/-- The call `fmt.Sprintf("%s %s", a, b)` with two string operands. -/
def sprintfSS (a b : String) : String := a ++ " " ++ b

def Val.isStr : Val → Bool
  | .str _ => true
  | .int _ => false

def goTypeName : Val → String
  | .str _ => "string"
  | .int _ => "int"

/-- The operand under the verb `%v`. -/
def goValue : Val → String
  | .str s => s
  | .int i => toString i

def goBadVerb (c : Char) (a : Val) : String :=
  "%!" ++ c.toString ++ "(" ++ goTypeName a ++ "=" ++ goValue a ++ ")"

def goVerb (c : Char) (a : Val) : String :=
  match c, a with
  | 'v', a => goValue a
  | 's', .str s => s
  | 'd', .int i => toString i
  | c, a => goBadVerb c a

def goExtra : List Val → String
  | [] => ""
  | a :: as =>
    "%!(EXTRA " ++ ", ".intercalate ((a :: as).map fun x => goTypeName x ++ "=" ++ goValue x) ++ ")"

/-- The loop of `fmt.Sprintf` over the format, for formats whose verbs are
`%s`, `%d`, `%v` and `%%` without flags, on string and int operands. -/
def goPrintf : List Char → List Val → String
  | [], as => goExtra as
  | ['%'], as => "%!(NOVERB)" ++ goExtra as
  | '%' :: '%' :: cs, as => "%" ++ goPrintf cs as
  | '%' :: c :: cs, [] => "%!" ++ c.toString ++ "(MISSING)" ++ goPrintf cs []
  | '%' :: c :: cs, a :: as => goVerb c a ++ goPrintf cs as
  | c :: cs, as => c.toString ++ goPrintf cs as

/-- The loop of `fmt.Sprint`: a space goes between two operands when neither
is a string. -/
def goPrint : Bool → List Val → String
  | _, [] => ""
  | prevString, a :: as =>
    (if !a.isStr && !prevString then " " else "") ++ goValue a ++ goPrint a.isStr as

def goSprint : List Val → String
  | [] => ""
  | a :: as => goValue a ++ goPrint a.isStr as

/-- A concrete library: the fragment of `fmt` above, and `strings.ToLower` on
ASCII text. -/
def goLib : Lib where
  Sprint := goSprint
  Sprintf := fun format v => goPrintf format.data v
  Errorf := fun format v => goPrintf format.data v
  ToLower := fun s => String.mk (s.data.map Char.toLower)

/-! ## Sinks -/

/-- The destination of a `*log.Logger`. -/
inductive Writer where
  | stderr
  | file (f : Nat)
  | other (w : Nat)
  deriving DecidableEq, Repr

/-- A `*log.Logger` as built by `log.New(out, pfx, flag)`. -/
structure Logger where
  out : Writer
  pfx : String
  flag : Nat
  deriving DecidableEq, Repr

def LstdFlags : Nat := 3
def Lmicroseconds : Nat := 4
def Llongfile : Nat := 8
def Lshortfile : Nat := 16

/-- A non-nil value of the interface `LoggerCustom`. -/
structure LoggerCustom where
  id : Nat
  deriving DecidableEq, Repr

/-- A `map[string]interface{}`; `none` is the nil map. -/
abbrev Fields := Option (List (String × Val))

/-- The package variable through which a standard logger was reached. -/
inductive Sink where
  | primary
  | err
  deriving DecidableEq, Repr

/-- A call made on a sink. `output via l d line` is `l.Output(d, line)` with
`l` read from `logger` (`via = primary`) or from `loggerErr` (`via = err`);
`custom cl d lvl msg fields` is `cl.Log(d, lvl, msg, fields)`. -/
inductive Event where
  | output (via : Sink) (l : Logger) (calldepth : Int) (line : String)
  | custom (cl : LoggerCustom) (depth logLevel : Int) (msg : String) (fields : Fields)
  deriving DecidableEq, Repr

/-! ## Package state -/

/-- A `map[int]string`; a missing key reads as the empty string. -/
abbrev IntMap := List (Int × String)

def IntMap.get (m : IntMap) (k : Int) : String := (m.lookup k).getD ""

def IntMap.set (m : IntMap) (k : Int) (v : String) : IntMap :=
  (k, v) :: m.filter fun p => p.1 != k

def LogColor : IntMap :=
  [(FATAL, "\x1b[0m\x1b[37m"), (ERROR, "\x1b[0m\x1b[31m"), (WARN, "\x1b[0m\x1b[33m"),
   (INFO, "\x1b[0m\x1b[35m"), (DEBUG, "\x1b[0m\x1b[34m")]

/-- The initial value of the variable `LogPrefix`. -/
def LogPrefixInit : IntMap :=
  [(FATAL, "[FATAL] "), (ERROR, "[ERROR] "), (WARN, "[WARN] "), (INFO, "[INFO] "),
   (DEBUG, "[DEBUG] ")]

def LogLevelWords : List (String × Int) :=
  [("fatal", 0), ("error", 1), ("warn", 2), ("info", 3), ("debug", 4), ("none", -1)]

/-- The package variables, with their initial values, and the calls made on
the sinks so far. -/
structure State where
  LogLevel : Int := ERROR
  ErrLogLevel : Int := ERROR
  LogPrefix : IntMap := LogPrefixInit
  logger : Option Logger := none
  customLogger : Option LoggerCustom := none
  loggerErr : Option Logger := none
  escapeNewlines : Bool := false
  postFix : String := ""
  trace : List Event := []
  deriving DecidableEq

/-- The state when the package has been loaded. -/
def State.init : State := {}

/-- The call `l.Output(calldepth, line)` on the logger read from a variable;
the callers test the variable against nil first. -/
def State.output (s : State) (via : Sink) (l : Option Logger) (calldepth : Int)
    (line : String) : State :=
  match l with
  | some lg => { s with trace := s.trace ++ [Event.output via lg calldepth line] }
  | none => s

/-- The call `cl.Log(depth, logLevel, msg, fields)`. -/
def State.customLog (s : State) (cl : LoggerCustom) (depth logLevel : Int) (msg : String)
    (fields : Fields) : State :=
  { s with trace := s.trace ++ [Event.custom cl depth logLevel msg fields] }

/-! ## Configuration -/

def LogLevelSet (levelWord : String) (s : State) : State :=
  match LogLevelWords.lookup levelWord with
  | some lvl => { s with LogLevel := lvl }
  | none => s

def SetLogger (l : Option Logger) (logLevel : String) (s : State) : State :=
  LogLevelSet logLevel { s with logger := l }

def GetLogger (s : State) : Option Logger := s.logger

def SetupLogging (L : Lib) (lvl : String) (s : State) : State :=
  SetLogger (some ⟨Writer.stderr, "", LstdFlags ||| Lshortfile ||| Lmicroseconds⟩)
    (L.ToLower lvl) s

def SetupLoggingLong (L : Lib) (lvl : String) (s : State) : State :=
  SetLogger (some ⟨Writer.stderr, "", LstdFlags ||| Llongfile ||| Lmicroseconds⟩)
    (L.ToLower lvl) s

def SetupLoggingFile (L : Lib) (f : Nat) (lvl : String) (s : State) : State :=
  SetLogger (some ⟨Writer.file f, "", LstdFlags ||| Lshortfile ||| Lmicroseconds⟩)
    (L.ToLower lvl) s

def SetCustomLogger (cl : Option LoggerCustom) (s : State) : State :=
  { s with customLogger := cl }

def GetCustomLogger (s : State) : Option LoggerCustom := s.customLogger

def SetColorOutput (s : State) : State :=
  { s with
    LogPrefix := LogColor.foldl (fun m p => m.set p.1 p.2) s.LogPrefix
    postFix := "\x1b[0m" }

def SetEscapeNewlines (en : Bool) (s : State) : State :=
  { s with escapeNewlines := en }

def SetErrLogger (l : Option Logger) (logLevel : String) (s : State) : State :=
  let s1 := { s with loggerErr := l }
  match LogLevelWords.lookup logLevel with
  | some lvl => { s1 with ErrLogLevel := lvl }
  | none => s1

def GetErrLogger (s : State) : Option Logger := s.logger

/-! ## Context prefixes -/

/-- A key of a `context.Context`: the package's own `logContextPrefixKey`, or
a key of another package. -/
inductive CtxKey where
  | logContextPrefixKey
  | other (k : Nat)
  deriving DecidableEq, Repr

/-- A value held by a `context.Context`: a string, or a value of another
type. -/
inductive CtxVal where
  | str (s : String)
  | other (v : Nat)
  deriving DecidableEq, Repr

/-- A non-nil `context.Context`: an empty root, or `context.WithValue` on a
parent. -/
inductive Context where
  | background
  | withValue (parent : Context) (key : CtxKey) (val : CtxVal)
  deriving DecidableEq, Repr

/-- The method `ctx.Value(key)`; `none` is the nil interface. -/
def Context.Value : Context → CtxKey → Option CtxVal
  | .background, _ => none
  | .withValue parent k v, key => if k = key then some v else parent.Value key

def NewContext (ctx : Context) (msg : String) : Context :=
  Context.withValue ctx CtxKey.logContextPrefixKey (CtxVal.str msg)

def NewContextWrap (ctx : Context) (msg : String) : Context :=
  match ctx.Value CtxKey.logContextPrefixKey with
  | some (CtxVal.str logContext) =>
    Context.withValue ctx CtxKey.logContextPrefixKey (CtxVal.str (sprintfSS logContext msg))
  | _ => Context.withValue ctx CtxKey.logContextPrefixKey (CtxVal.str msg)

def FromContext (ctx : Context) : String :=
  match ctx.Value CtxKey.logContextPrefixKey with
  | some (CtxVal.str logContext) => logContext
  | _ => ""

/-! ## The dispatcher -/

/-- The call `strings.Replace(str, "\n", "\\n", -1)`: every newline becomes a
backslash followed by the letter n. -/
def EscapeNewlines (str : String) : String :=
  String.mk (str.data.flatMap fun c => if c = '\n' then ['\\', 'n'] else [c])

def DoLogFields (depth logLvl : Int) (msg : String) (fields : Fields) (s : State) : State :=
  let msg := if s.escapeNewlines then EscapeNewlines msg else msg
  match s.customLogger with
  | none =>
    if s.ErrLogLevel ≥ logLvl ∧ s.loggerErr ≠ none then
      s.output Sink.err s.loggerErr depth (s.LogPrefix.get logLvl ++ msg ++ s.postFix)
    else if s.LogLevel ≥ logLvl ∧ s.logger ≠ none then
      s.output Sink.primary s.logger depth (s.LogPrefix.get logLvl ++ msg ++ s.postFix)
    else s
  | some cl => s.customLog cl depth logLvl msg fields

def DoLog (depth logLvl : Int) (msg : String) (s : State) : State :=
  DoLogFields (wrapInt (depth + 1)) logLvl msg none s

/-! ## Logging functions -/

/-- The format of the `Ctx` functions: the context prefix and a space go in
front when the prefix is not empty. -/
def ctxFormat (ctx : Context) (format : String) : String :=
  let lc := FromContext ctx
  if lc.length > 0 then sprintfSS lc format else format

def Debug (L : Lib) (v : List Val) (s : State) : State :=
  if s.LogLevel ≥ 4 then DoLog 3 DEBUG (L.Sprint v) s else s

def Debugf (L : Lib) (format : String) (v : List Val) (s : State) : State :=
  if s.LogLevel ≥ 4 then DoLog 3 DEBUG (L.Sprintf format v) s else s

def DebugCtx (L : Lib) (ctx : Context) (format : String) (v : List Val) (s : State) : State :=
  if s.LogLevel ≥ 4 then DoLog 3 DEBUG (L.Sprintf (ctxFormat ctx format) v) s else s

def Info (L : Lib) (v : List Val) (s : State) : State :=
  if s.LogLevel ≥ 3 then DoLog 3 INFO (L.Sprint v) s else s

def Infof (L : Lib) (format : String) (v : List Val) (s : State) : State :=
  if s.LogLevel ≥ 3 then DoLog 3 INFO (L.Sprintf format v) s else s

def InfoCtx (L : Lib) (ctx : Context) (format : String) (v : List Val) (s : State) : State :=
  if s.LogLevel ≥ 3 then DoLog 3 INFO (L.Sprintf (ctxFormat ctx format) v) s else s

def Warn (L : Lib) (v : List Val) (s : State) : State :=
  if s.LogLevel ≥ 2 then DoLog 3 WARN (L.Sprint v) s else s

def Warnf (L : Lib) (format : String) (v : List Val) (s : State) : State :=
  if s.LogLevel ≥ 2 then DoLog 3 WARN (L.Sprintf format v) s else s

def WarnCtx (L : Lib) (ctx : Context) (format : String) (v : List Val) (s : State) : State :=
  if s.LogLevel ≥ 2 then DoLog 3 WARN (L.Sprintf (ctxFormat ctx format) v) s else s

def Error (L : Lib) (v : List Val) (s : State) : State :=
  if s.LogLevel ≥ 1 then DoLog 3 ERROR (L.Sprint v) s else s

def Errorf (L : Lib) (format : String) (v : List Val) (s : State) : State :=
  if s.LogLevel ≥ 1 then DoLog 3 ERROR (L.Sprintf format v) s else s

def ErrorCtx (L : Lib) (ctx : Context) (format : String) (v : List Val) (s : State) : State :=
  if s.LogLevel ≥ 1 then DoLog 3 ERROR (L.Sprintf (ctxFormat ctx format) v) s else s

/-- The function returns the text of the error it built next to the state. -/
def LogErrorf (L : Lib) (format : String) (v : List Val) (s : State) : State × String :=
  let err := L.Errorf format v
  (if s.LogLevel ≥ 1 then DoLog 3 ERROR err s else s, err)

def Log (L : Lib) (logLvl : Int) (v : List Val) (s : State) : State :=
  if s.LogLevel ≥ logLvl then DoLog 3 logLvl (L.Sprint v) s else s

def Logf (L : Lib) (logLvl : Int) (format : String) (v : List Val) (s : State) : State :=
  if s.LogLevel ≥ logLvl then DoLog 3 logLvl (L.Sprintf format v) s else s

def LogFieldsf (L : Lib) (logLvl : Int) (fields : Fields) (format : String) (v : List Val)
    (s : State) : State :=
  if s.LogLevel ≥ logLvl then DoLogFields 3 logLvl (L.Sprintf format v) fields s else s

def LogP (L : Lib) (logLvl : Int) (pre : String) (v : List Val) (s : State) : State :=
  if s.ErrLogLevel ≥ logLvl ∧ s.loggerErr ≠ none then
    s.output Sink.err s.loggerErr 3 (pre ++ s.LogPrefix.get logLvl ++ L.Sprint v ++ s.postFix)
  else if s.LogLevel ≥ logLvl ∧ s.logger ≠ none then
    s.output Sink.primary s.logger 3 (pre ++ s.LogPrefix.get logLvl ++ L.Sprint v ++ s.postFix)
  else s

def LogPf (L : Lib) (logLvl : Int) (pre : String) (format : String) (v : List Val)
    (s : State) : State :=
  if s.ErrLogLevel ≥ logLvl ∧ s.loggerErr ≠ none then
    s.output Sink.err s.loggerErr 3
      (pre ++ s.LogPrefix.get logLvl ++ L.Sprintf format v ++ s.postFix)
  else if s.LogLevel ≥ logLvl ∧ s.logger ≠ none then
    s.output Sink.primary s.logger 3
      (pre ++ s.LogPrefix.get logLvl ++ L.Sprintf format v ++ s.postFix)
  else s

def LogD (L : Lib) (depth logLvl : Int) (v : List Val) (s : State) : State :=
  if s.LogLevel ≥ logLvl then DoLog depth logLvl (L.Sprint v) s else s

def LogCtx (L : Lib) (ctx : Context) (depth logLvl : Int) (format : String) (v : List Val)
    (s : State) : State :=
  if s.LogLevel ≥ logLvl then
    let msg := L.Sprintf format v
    let lc := FromContext ctx
    let msg := if lc.length > 0 then sprintfSS lc msg else msg
    DoLog (wrapInt (depth + 1)) logLvl msg s
  else s

/-! ## Throttling -/

/-- One second as a `time.Duration`, which counts nanoseconds. -/
def Second : Nat := 1000000000

/-- Modelled from the spec: the limiter type `Throttler`, whose file is not among
the sources. A limiter is configured for `limit` events per `window`; `start` is
the time at which the current window began and `count` the number of attempts
let through in it. -/
structure Throttler where
  limit : Int
  window : Nat
  start : Nat
  count : Nat
  deriving DecidableEq, Repr

/-- Modelled from the spec: `NewThrottler(limit, window)`, "a new limiter instance
configured for limit events per window duration"; `now` is the clock at the
call. -/
def NewThrottler (limit : Int) (window : Nat) (now : Nat) : Throttler :=
  { limit := limit, window := window, start := now, count := 0 }

/-- Modelled from the spec: the attempt operation `Throttle()`, which "returns
whether the current call should be skipped": not more than `limit` attempts
pass per window, and an attempt made after the window has elapsed starts a new
window. The second result of the Go method is discarded by its only caller and
is left out. -/
def Throttler.Throttle (th : Throttler) (now : Nat) : Bool × Throttler :=
  let th1 := if now ≥ th.start + th.window then { th with start := now, count := 0 } else th
  if (th1.count : Int) < th1.limit then (false, { th1 with count := th1.count + 1 })
  else (true, th1)

/-- A call on the registry mutex or on a limiter: `throttleMu.Lock()`,
`throttleMu.Unlock()`, and `th.Throttle()` on the limiter at address `th` with
the result `skip` it returned. -/
inductive Call where
  | lock
  | unlock
  | throttle (th : Nat) (skip : Bool)
  deriving DecidableEq, Repr

/-- An access to the map `logThrottles`: the read `logThrottles[key]` and the
write `logThrottles[key] = th` of the address `th`. -/
inductive MapOp where
  | read (key : String)
  | write (key : String) (th : Nat)
  deriving DecidableEq, Repr

/-- The package state with the throttle registry. `logThrottles` is the map
from keys to limiter addresses, `throttlers` the limiters allocated so far (an
address is a position in it), and `calls` the calls made on the mutex and on
limiters, each stamped with the number of sink calls made before it; `mapOps`
holds the accesses to the map, each stamped with the number of calls on the
mutex and on limiters made before it. -/
structure Pkg extends State where
  logThrottles : List (String × Nat) := []
  throttlers : List Throttler := []
  calls : List (Call × Nat) := []
  mapOps : List (MapOp × Nat) := []
  deriving DecidableEq

def Pkg.init : Pkg := {}

def Pkg.call (r : Pkg) (c : Call) : Pkg :=
  { r with calls := r.calls ++ [(c, r.trace.length)] }

/-- An access to the map `logThrottles` is recorded. -/
def Pkg.mapOp (r : Pkg) (op : MapOp) : Pkg :=
  { r with mapOps := r.mapOps ++ [(op, r.calls.length)] }

/-- The call `th.Throttle()` through the address `th`. An address found in the
registry always denotes an allocated limiter. -/
def Pkg.Throttle (r : Pkg) (th : Nat) (now : Nat) : Bool × Pkg :=
  match r.throttlers[th]? with
  | some t =>
    let res := t.Throttle now
    (res.1, { r with throttlers := r.throttlers.set th res.2 }.call (Call.throttle th res.1))
  | none => (true, r)

/-- The lookup `th, ok := logThrottles[key]` with the insertion of a new limiter
when the key is absent; the result is the address `th` and the state. -/
def Pkg.lookupOrInsert (r : Pkg) (now : Nat) (limit : Int) (key : String) : Nat × Pkg :=
  let r1 := r.mapOp (MapOp.read key)
  match r1.logThrottles.lookup key with
  | some th => (th, r1)
  | none =>
    (r1.throttlers.length,
      { r1 with
        throttlers := r1.throttlers ++ [NewThrottler limit (3600 * Second) now]
        logThrottles := (key, r1.throttlers.length) :: r1.logThrottles }.mapOp
        (MapOp.write key r1.throttlers.length))

def doLogThrottle (now : Nat) (depth logLvl limit : Int) (key msg : String) (r : Pkg) : Pkg :=
  if r.LogLevel < logLvl then r
  else
    let r1 := r.call Call.lock
    let found := r1.lookupOrInsert now limit key
    let res := found.2.Throttle found.1 now
    let r2 := res.2.call Call.unlock
    if res.1 then r2
    else { r2 with toState := DoLog depth logLvl msg r2.toState }

def LogThrottleKey (L : Lib) (now : Nat) (logLvl limit : Int) (key format : String)
    (v : List Val) (r : Pkg) : Pkg :=
  if r.LogLevel < logLvl then r
  else doLogThrottle now 4 logLvl limit key (L.Sprintf format v) r

def LogThrottleKeyCtx (L : Lib) (now : Nat) (ctx : Context) (logLvl limit : Int)
    (key format : String) (v : List Val) (r : Pkg) : Pkg :=
  if r.LogLevel < logLvl then r
  else doLogThrottle now 4 logLvl limit key (L.Sprintf (ctxFormat ctx format) v) r

def LogThrottle (L : Lib) (now : Nat) (logLvl limit : Int) (format : String) (v : List Val)
    (r : Pkg) : Pkg :=
  if r.LogLevel < logLvl then r
  else doLogThrottle now 4 logLvl limit format (L.Sprintf format v) r

def LogThrottleCtx (L : Lib) (now : Nat) (ctx : Context) (logLvl limit : Int) (format : String)
    (v : List Val) (r : Pkg) : Pkg :=
  if r.LogLevel < logLvl then r
  else
    let format := ctxFormat ctx format
    doLogThrottle now 4 logLvl limit format (L.Sprintf format v) r

def LogThrottleD (L : Lib) (now : Nat) (depth logLvl limit : Int) (format : String)
    (v : List Val) (r : Pkg) : Pkg :=
  if r.LogLevel < logLvl then r
  else doLogThrottle now depth logLvl limit format (L.Sprintf format v) r

/-! ## Stack traces -/

/-- The pieces of a text between its newlines; a text without newline is one
piece. -/
def splitNL : List Char → List (List Char)
  | [] => [[]]
  | c :: cs =>
    if c = '\n' then [] :: splitNL cs
    else
      match splitNL cs with
      | l :: ls => (c :: l) :: ls
      | [] => [[c]]

/-- The call `strings.Split(s, "\n")`. -/
def Split (s : String) : List String := (splitNL s.data).map String.mk

/-- The call `strings.Join(elems, sep)`. -/
def Join : List String → String → String
  | [], _ => ""
  | [a], _ => a
  | a :: b :: rest, sep => a ++ sep ++ Join (b :: rest) sep

/-- The call `strings.HasSuffix(s, suffix)`. -/
def HasSuffix (s suffix : String) : Bool := suffix.data.isSuffixOf s.data

/-- The call `strings.HasPrefix(s, pre)`. -/
def HasPrefix (s pre : String) : Bool := pre.data.isPrefixOf s.data

/-- The slice expression `a[lo:hi]` on a slice whose capacity is its length;
`none` is the run-time panic for bounds out of range. -/
def goSlice {α : Type} (a : List α) (lo hi : Int) : Option (List α) :=
  if 0 ≤ lo ∧ lo ≤ hi ∧ hi ≤ (a.length : Int) then
    some ((a.drop lo.toNat).take (hi.toNat - lo.toNat))
  else none

/-- The test of the loop of `PrettyStack`: the line is kept. -/
def keepLine (line : String) : Bool :=
  !HasSuffix line ")" && !HasPrefix line "/usr/local"

/-- The function `PrettyStack` on the text `stack` that `runtime.Stack` wrote
into the buffer; `none` is a panic. -/
def PrettyStack (stack : String) (lineCt : Int) : Option String :=
  let parts := Split stack
  if parts.length > 3 then
    let parts := parts.drop 2
    let parts2 := (List.range' 3 (parts.length - 1 - 3)).foldl
      (fun parts2 i => if keepLine (parts.getD i "") then parts2 ++ [parts.getD i ""] else parts2)
      []
    if (parts2.length : Int) > lineCt then
      (goSlice parts2 0 lineCt).map fun p => Join p "\n"
    else some (Join parts2 "\n")
  else some stack

def DebugT (L : Lib) (stack : String) (lineCt : Int) (s : State) : Option State :=
  if s.LogLevel ≥ 4 then
    (PrettyStack stack lineCt).map fun ps => DoLog 3 DEBUG (L.Sprint [Val.str "\n", Val.str ps]) s
  else some s

def InfoT (L : Lib) (stack : String) (lineCt : Int) (s : State) : Option State :=
  if s.LogLevel ≥ 3 then
    (PrettyStack stack lineCt).map fun ps => DoLog 3 INFO (L.Sprint [Val.str "\n", Val.str ps]) s
  else some s

def WarnT (L : Lib) (stack : String) (lineCt : Int) (s : State) : Option State :=
  if s.LogLevel ≥ 2 then
    (PrettyStack stack lineCt).map fun ps => DoLog 3 WARN (L.Sprint [Val.str "\n", Val.str ps]) s
  else some s

/-- The operands of `LogTracef` after the stack has been appended; `none` is a
panic of `parts[3:]`. -/
def traceOperands (stack : String) (v : List Val) : Option (List Val) :=
  let parts := Split stack
  if parts.length > 1 then
    (goSlice parts 3 parts.length).map fun p => v ++ [Val.str (Join p "\n")]
  else some v

def LogTracef (L : Lib) (stack : String) (logLvl : Int) (format : String) (v : List Val)
    (s : State) : Option State :=
  if s.LogLevel ≥ logLvl then
    (traceOperands stack v).map fun w => DoLog 3 logLvl (L.Sprintf (format ++ "\n%v") w) s
  else some s

/-- The operands of `LogTraceDf` after the stack has been appended; `none` is a
panic of `parts[3 : 3+lineCt]` or of `parts[3:]`. -/
def traceOperandsD (stack : String) (lineCt : Int) (v : List Val) : Option (List Val) :=
  let parts := Split stack
  if parts.length > 1 then
    if (parts.length : Int) - 3 > lineCt then
      (goSlice parts 3 (wrapInt (3 + lineCt))).map fun parts =>
        let parts2 := (List.range' 1 (parts.length / 2) 2).foldl
          (fun parts2 i => parts2 ++ [parts.getD i ""]) []
        v ++ [Val.str (Join parts2 "\n")]
    else
      (goSlice parts 3 parts.length).map fun p => v ++ [Val.str (Join p "\n")]
  else some v

def LogTraceDf (L : Lib) (stack : String) (logLvl lineCt : Int) (format : String)
    (v : List Val) (s : State) : Option State :=
  if s.LogLevel ≥ logLvl then
    (traceOperandsD stack lineCt v).map fun w =>
      DoLog 3 logLvl (L.Sprintf (format ++ "\n%v") w) s
  else some s

/-! ## Evaluation on concrete inputs -/

/-- A stack text as `runtime.Stack` writes it: the goroutine line, then for every
frame the function with its arguments and the file position. -/
def sampleStack : String :=
  "goroutine 1 [running]:\ngou.PrettyStack(0x2)\n\t/src/gou/log.go:396 +0x5d\ngou.DebugT(0x2)\n\t/src/gou/log.go:235 +0x4a\nmain.work(0x1)\n\t/src/app/main.go:20 +0x1d\nmain.main()\n\t/src/app/main.go:9 +0x17\n"

example : Split "a\nb\n" = ["a", "b", ""] := by decide
example : Split "" = [""] := by decide
example : Join ["a", "b", ""] "\n" = "a\nb\n" := by decide
example : HasSuffix "main.main()" ")" = true := by decide
example : HasPrefix "/usr/local/go/x.go" "/usr/local" = true := by decide
example : (Split sampleStack).length = 10 := by decide
example : PrettyStack sampleStack 5 =
    some "\t/src/app/main.go:20 +0x1d\n\t/src/app/main.go:9 +0x17" := by decide
example : PrettyStack sampleStack 1 = some "\t/src/app/main.go:20 +0x1d" := by decide
example : PrettyStack sampleStack (-1) = none := by decide
example : traceOperands "a\nb" [] = none := by decide
example : traceOperandsD sampleStack 4 [] =
    some [Val.str "\t/src/gou/log.go:235 +0x4a\n\t/src/app/main.go:20 +0x1d"] := by decide
example : traceOperandsD sampleStack (-1) [] = none := by decide
example : (doLogThrottle 0 4 ERROR 1 "k" "m" { Pkg.init with logger := some ⟨Writer.stderr, "", 23⟩ }).calls
    = [(Call.lock, 0), (Call.throttle 0 false, 0), (Call.unlock, 0)] := by decide
example : (doLogThrottle 0 4 ERROR 1 "k" "m" { Pkg.init with logger := some ⟨Writer.stderr, "", 23⟩ }).trace
    = [Event.output Sink.primary ⟨Writer.stderr, "", 23⟩ 5 "[ERROR] m"] := by decide



example : goLib.Sprintf "a %s b %d%%" [Val.str "x", Val.int 5] = "a x b 5%" := by decide
example : goLib.Sprintf "%d" [] = "%!d(MISSING)" := by decide
example : goLib.Sprint [Val.str "a", Val.str "b"] = "ab" := by decide
example : goLib.ToLower "DeBug" = "debug" := by decide
example : EscapeNewlines "a\nb" = "a\\nb" := by decide
example : (Log goLib ERROR [Val.str "boom"]
    { State.init with logger := some ⟨Writer.stderr, "", 23⟩, LogLevel := WARN }).trace
    = [Event.output Sink.primary ⟨Writer.stderr, "", 23⟩ 4 "[ERROR] boom"] := by decide
example : (SetColorOutput State.init).LogPrefix.get ERROR = "\x1b[0m\x1b[31m" := by decide

/-! ## Observations on a run -/

def Event.isOutput (via : Sink) : Event → Bool
  | .output w _ _ _ => w == via
  | .custom _ _ _ _ _ => false

def Event.isCustom : Event → Bool
  | .output _ _ _ _ => false
  | .custom _ _ _ _ _ => true

/-- The calls made on the sinks between the state `s` and the later state
`t`. -/
def newEvents (s t : State) : List Event := t.trace.drop s.trace.length

/-! ## Sample configurations -/

/-- The logger `log.New(os.Stderr, "", log.LstdFlags|log.Lshortfile|log.Lmicroseconds)`. -/
def stderrLogger : Logger := ⟨Writer.stderr, "", 23⟩

/-- A logger on an open file. -/
def fileLogger : Logger := ⟨Writer.file 7, "", 3⟩

/-- Primary sink on stderr with threshold WARN, nothing else configured. -/
def warnState : State := { State.init with logger := some stderrLogger, LogLevel := WARN }

/-- Primary sink on stderr with threshold DEBUG and newline escaping on. -/
def escapeState : State :=
  { State.init with logger := some stderrLogger, LogLevel := DEBUG, escapeNewlines := true }

/-- Both standard sinks configured, error threshold ERROR, primary threshold
DEBUG. -/
def bothState : State :=
  { State.init with
    logger := some stderrLogger, loggerErr := some fileLogger, LogLevel := DEBUG }

/-- A custom sink next to both standard sinks, threshold DEBUG. -/
def customState : State := { bothState with customLogger := some ⟨1⟩ }

/-- A custom sink with newline escaping on. -/
def customEscapeState : State := { customState with escapeNewlines := true }

/-- Both standard sinks configured and the primary threshold NONE. -/
def noneState : State := { bothState with LogLevel := NOLOGGING }

/-- Both standard sinks configured, primary threshold FATAL, error threshold
DEBUG. -/
def fatalState : State := { bothState with LogLevel := FATAL, ErrLogLevel := DEBUG }

/-- A carrier without a log prefix that holds a value under a foreign key. -/
def plainCtx : Context := Context.withValue Context.background (CtxKey.other 1) (CtxVal.other 5)

/-- A carrier whose log prefix holds a format verb. -/
def verbCtx : Context := NewContext plainCtx "%d"

/-- A carrier with the log prefix `req-7`. -/
def reqCtx : Context := NewContext plainCtx "req-7"

/-- The package with a primary sink on stderr and threshold WARN. -/
def warnPkg : Pkg := { Pkg.init with toState := warnState }

/-- The limiter let the attempt through. -/
def Call.isPass : Call → Bool
  | .throttle _ false => true
  | _ => false

def Call.isThrottle : Call → Bool
  | .throttle _ _ => true
  | _ => false

/-- The number of attempts that limiters have let through so far. -/
def Pkg.passed (r : Pkg) : Nat := (r.calls.filter fun c => c.1.isPass).length

/-- The calls made on the mutex and on limiters between `r` and the later
state `t`. -/
def newCalls (r t : Pkg) : List (Call × Nat) := t.calls.drop r.calls.length

/-- The accesses to the map `logThrottles` between `r` and the later state
`t`. -/
def newMapOps (r t : Pkg) : List (MapOp × Nat) := t.mapOps.drop r.mapOps.length

/-- A sequence of calls `LogThrottleKey(lvl, limit, key, format, v...)`, each with
the time at which it is made. -/
def runThrottleKey (L : Lib) (lvl limit : Int) (key : String) :
    List (Nat × String × List Val) → Pkg → Pkg
  | [], r => r
  | c :: cs, r => runThrottleKey L lvl limit key cs (LogThrottleKey L c.1 lvl limit key c.2.1 c.2.2 r)

/-- A package where the key "db" is registered with a limiter for two events
an hour, created at time 5 and not yet attempted. -/
def dbPkg : Pkg :=
  { warnPkg with
    logThrottles := [("db", 0)]
    throttlers := [NewThrottler 2 (3600 * Second) 5] }

/-- The lines that `PrettyStack` examines: those after the first five and before
the last piece of the split text. -/
def examinedLines (stack : String) : List String := ((Split stack).drop 5).dropLast

/-- A debug-level state with a primary sink on stderr. -/
def debugState : State := { State.init with logger := some stderrLogger, LogLevel := DEBUG }

/-- The limiter registered for `key` is allocated, was created for `N` events an
hour, is in the window begun at `t0` and has let `c` attempts through. -/
def KeyWindow (key : String) (N t0 c : Nat) (r : Pkg) : Prop :=
  ∃ p, r.logThrottles.lookup key = some p ∧
    r.throttlers[p]? = some { limit := N, window := 3600 * Second, start := t0, count := c }

/-! ## Lemmas on the dispatcher -/

theorem wrapInt_of_bounds (x : Int) (h1 : -(2 ^ 63) ≤ x) (h2 : x < 2 ^ 63) : wrapInt x = x := by
  unfold wrapInt
  omega

theorem wrapInt_four : wrapInt (3 + 1) = 4 := by decide

theorem DoLogFields_custom (depth logLvl : Int) (msg : String) (fields : Fields) (s : State)
    (cl : LoggerCustom) (hc : s.customLogger = some cl) :
    DoLogFields depth logLvl msg fields s =
      { s with trace := s.trace ++
          [Event.custom cl depth logLvl
            (if s.escapeNewlines then EscapeNewlines msg else msg) fields] } := by
  simp [DoLogFields, hc, State.customLog]

theorem DoLogFields_err (depth logLvl : Int) (msg : String) (fields : Fields) (s : State)
    (le : Logger) (hc : s.customLogger = none) (hl : s.ErrLogLevel ≥ logLvl)
    (he : s.loggerErr = some le) :
    DoLogFields depth logLvl msg fields s =
      { s with trace := s.trace ++
          [Event.output Sink.err le depth
            (s.LogPrefix.get logLvl ++ (if s.escapeNewlines then EscapeNewlines msg else msg)
              ++ s.postFix)] } := by
  simp [DoLogFields, hc, he, hl, State.output]

theorem DoLogFields_primary (depth logLvl : Int) (msg : String) (fields : Fields) (s : State)
    (lg : Logger) (hc : s.customLogger = none)
    (hne : ¬ (s.ErrLogLevel ≥ logLvl ∧ s.loggerErr ≠ none)) (hl : s.LogLevel ≥ logLvl)
    (hp : s.logger = some lg) :
    DoLogFields depth logLvl msg fields s =
      { s with trace := s.trace ++
          [Event.output Sink.primary lg depth
            (s.LogPrefix.get logLvl ++ (if s.escapeNewlines then EscapeNewlines msg else msg)
              ++ s.postFix)] } := by
  unfold DoLogFields
  simp only [hc, if_neg hne]
  simp [hp, hl, hc, State.output]

theorem DoLogFields_drop (depth logLvl : Int) (msg : String) (fields : Fields) (s : State)
    (hc : s.customLogger = none)
    (hne : ¬ (s.ErrLogLevel ≥ logLvl ∧ s.loggerErr ≠ none))
    (hnp : ¬ (s.LogLevel ≥ logLvl ∧ s.logger ≠ none)) :
    DoLogFields depth logLvl msg fields s = s := by
  simp only [DoLogFields, hc, if_neg hne, if_neg hnp]

theorem newEvents_self (s : State) : newEvents s s = [] := by
  simp [newEvents]

theorem newEvents_append (s : State) (evs : List Event) :
    newEvents s { s with trace := s.trace ++ evs } = evs := by
  simp [newEvents]

/-! ## Lemmas on the level words -/

theorem lookup_LogLevelWords (w : String) :
    LogLevelWords.lookup w =
      if w = "fatal" then some 0 else if w = "error" then some 1
      else if w = "warn" then some 2 else if w = "info" then some 3
      else if w = "debug" then some 4 else if w = "none" then some (-1) else none := by
  unfold LogLevelWords
  simp only [List.lookup]
  repeat' split
  all_goals simp_all

theorem lookup_of_mem_LogLevelWords (w : String) (lvl : Int)
    (h : (w, lvl) ∈ LogLevelWords) : LogLevelWords.lookup w = some lvl := by
  simp only [LogLevelWords, List.mem_cons, Prod.mk.injEq, List.mem_singleton, List.not_mem_nil,
    or_false] at h
  rcases h with ⟨rfl, rfl⟩ | ⟨rfl, rfl⟩ | ⟨rfl, rfl⟩ | ⟨rfl, rfl⟩ | ⟨rfl, rfl⟩ | ⟨rfl, rfl⟩ <;>
    decide

/-! ## Claims on the dispatch -/

/-- C1: with no custom sink, no error sink, a primary sink `lg`, an empty
suffix and newline escaping off, `Log(lvl, v...)` makes exactly one call
`lg.Output(4, LogPrefix[lvl] + Sprint(v...))` when `LogLevel >= lvl` and changes
nothing otherwise; `Debug`, `Info`, `Warn`, `Error` are `Log` at their own level;
with the plain prefix table `Error` writes `"[ERROR] "` followed by the message. -/
theorem C1_log_writes_primary_iff_admitted (L : Lib) (s : State) (lg : Logger) (v : List Val)
    (hc : s.customLogger = none) (he : s.loggerErr = none) (hp : s.logger = some lg)
    (hcol : s.postFix = "") (hesc : s.escapeNewlines = false) :
    (∀ lvl : Int, Log L lvl v s =
      if s.LogLevel ≥ lvl then
        { s with trace := s.trace ++
            [Event.output Sink.primary lg 4 (s.LogPrefix.get lvl ++ L.Sprint v)] }
      else s) ∧
    Debug L v s = Log L DEBUG v s ∧ Info L v s = Log L INFO v s ∧
    Warn L v s = Log L WARN v s ∧ Error L v s = Log L ERROR v s ∧
    (s.LogPrefix = LogPrefixInit → s.LogLevel ≥ ERROR →
      Error L v s = { s with trace := s.trace ++
        [Event.output Sink.primary lg 4 ("[ERROR] " ++ L.Sprint v)] }) := by
  have hlog : ∀ lvl : Int, Log L lvl v s =
      if s.LogLevel ≥ lvl then
        { s with trace := s.trace ++
            [Event.output Sink.primary lg 4 (s.LogPrefix.get lvl ++ L.Sprint v)] }
      else s := by
    intro lvl
    unfold Log DoLog
    by_cases h : s.LogLevel ≥ lvl
    · rw [if_pos h, if_pos h, wrapInt_four,
        DoLogFields_primary 4 lvl (L.Sprint v) none s lg hc (by simp [he]) h hp]
      simp [hcol, hesc]
    · rw [if_neg h, if_neg h]
  refine ⟨hlog, rfl, rfl, rfl, rfl, ?_⟩
  intro hpre hl
  have hE : Error L v s = Log L ERROR v s := rfl
  rw [hE, hlog ERROR, if_pos hl, hpre]
  rfl

theorem C1_log_writes_primary_iff_admitted_witness :
    Error goLib [Val.str "boom"] warnState =
      { warnState with
        trace := [Event.output Sink.primary stderrLogger 4 "[ERROR] boom"] } ∧
    Info goLib [Val.str "boom"] warnState = warnState := by
  have h := C1_log_writes_primary_iff_admitted goLib warnState stderrLogger [Val.str "boom"]
    rfl rfl rfl rfl rfl
  exact ⟨h.2.2.2.2.2 rfl (by decide), h.2.2.1.trans ((h.1 INFO).trans (by decide))⟩

/-- C2 (counterexample): with newline escaping on, `DoLogFields(4, ERROR, "a\nb", nil)`
writes the line `"[ERROR] a\\nb"`, which is not `LogPrefix[ERROR] + msg + postFix`. -/
theorem C2_line_is_escaped_counterexample :
    escapeState.customLogger = none ∧
    (DoLogFields 4 ERROR "a\nb" none escapeState).trace =
      [Event.output Sink.primary stderrLogger 4 "[ERROR] a\\nb"] ∧
    (DoLogFields 4 ERROR "a\nb" none escapeState).trace ≠
      escapeState.trace ++ [Event.output Sink.primary stderrLogger 4
        (escapeState.LogPrefix.get ERROR ++ "a\nb" ++ escapeState.postFix)] := by
  decide

/-- C2 (amended): with no custom sink, `DoLogFields(depth, lvl, msg, fields)` makes
one call on the error sink when `ErrLogLevel >= lvl` and an error sink is set,
otherwise one call on the primary sink when `LogLevel >= lvl` and a primary sink
is set, otherwise none; the line is `LogPrefix[lvl] + m + postFix` with the given
depth, where `m` is `msg`, or `EscapeNewlines(msg)` when newline escaping is on. -/
theorem C2_dispatch_standard_sinks (depth lvl : Int) (msg : String) (fields : Fields)
    (s : State) (hc : s.customLogger = none) :
    (∀ le : Logger, s.ErrLogLevel ≥ lvl → s.loggerErr = some le →
      DoLogFields depth lvl msg fields s =
        { s with trace := s.trace ++ [Event.output Sink.err le depth
          (s.LogPrefix.get lvl ++ (if s.escapeNewlines then EscapeNewlines msg else msg)
            ++ s.postFix)] }) ∧
    (∀ lg : Logger, ¬ (s.ErrLogLevel ≥ lvl ∧ s.loggerErr ≠ none) → s.LogLevel ≥ lvl →
      s.logger = some lg →
      DoLogFields depth lvl msg fields s =
        { s with trace := s.trace ++ [Event.output Sink.primary lg depth
          (s.LogPrefix.get lvl ++ (if s.escapeNewlines then EscapeNewlines msg else msg)
            ++ s.postFix)] }) ∧
    (¬ (s.ErrLogLevel ≥ lvl ∧ s.loggerErr ≠ none) → ¬ (s.LogLevel ≥ lvl ∧ s.logger ≠ none) →
      DoLogFields depth lvl msg fields s = s) :=
  ⟨fun le hl he => DoLogFields_err depth lvl msg fields s le hc hl he,
   fun lg hne hl hp => DoLogFields_primary depth lvl msg fields s lg hc hne hl hp,
   fun hne hnp => DoLogFields_drop depth lvl msg fields s hc hne hnp⟩

theorem C2_dispatch_standard_sinks_witness :
    DoLogFields 5 ERROR "x\ny" none bothState =
      { bothState with trace := [Event.output Sink.err fileLogger 5 "[ERROR] x\ny"] } ∧
    DoLogFields 5 INFO "x\ny" none bothState =
      { bothState with trace := [Event.output Sink.primary stderrLogger 5 "[INFO] x\ny"] } ∧
    DoLogFields 5 INFO "x\ny" none warnState = warnState := by
  have h1 := C2_dispatch_standard_sinks 5 ERROR "x\ny" none bothState rfl
  have h2 := C2_dispatch_standard_sinks 5 INFO "x\ny" none bothState rfl
  have h3 := C2_dispatch_standard_sinks 5 INFO "x\ny" none warnState rfl
  exact ⟨(h1.1 fileLogger (by decide) rfl).trans (by decide),
    (h2.2.1 stderrLogger (by decide) (by decide) rfl).trans (by decide),
    h3.2.2 (by decide) (by decide)⟩

/-- C3 (counterexample): with a custom sink and newline escaping on, the
admitted call `Log(FATAL, "a\nb")` hands the custom sink `"a\\nb"`, not the
message `"a\nb"`. -/
theorem C3_custom_message_escaped_counterexample :
    customEscapeState.customLogger = some ⟨1⟩ ∧ customEscapeState.LogLevel ≥ FATAL ∧
    goLib.Sprint [Val.str "a\nb"] = "a\nb" ∧
    (Log goLib FATAL [Val.str "a\nb"] customEscapeState).trace =
      [Event.custom ⟨1⟩ 4 FATAL "a\\nb" none] ∧
    (Log goLib FATAL [Val.str "a\nb"] customEscapeState).trace ≠
      customEscapeState.trace ++ [Event.custom ⟨1⟩ 4 FATAL "a\nb" none] := by
  decide

/-- C3 (amended): with a custom sink `cl` registered and `LogLevel >= lvl`,
`Log(lvl, v...)` makes exactly one call `cl.Log(4, lvl, m, nil)` and
`LogFieldsf(lvl, fields, format, v...)` exactly one call `cl.Log(3, lvl, m, fields)`,
where `m` is the message without prefix or suffix: the message itself when
newline escaping is off, `EscapeNewlines` of it when it is on. -/
theorem C3_custom_sink_gets_message (L : Lib) (s : State) (cl : LoggerCustom) (lvl : Int)
    (v : List Val) (fields : Fields) (format : String)
    (hc : s.customLogger = some cl) (hl : s.LogLevel ≥ lvl) :
    Log L lvl v s =
      { s with trace := s.trace ++ [Event.custom cl 4 lvl
        (if s.escapeNewlines then EscapeNewlines (L.Sprint v) else L.Sprint v) none] } ∧
    LogFieldsf L lvl fields format v s =
      { s with trace := s.trace ++ [Event.custom cl 3 lvl
        (if s.escapeNewlines then EscapeNewlines (L.Sprintf format v) else L.Sprintf format v)
        fields] } ∧
    (s.escapeNewlines = false →
      Log L lvl v s = { s with trace := s.trace ++ [Event.custom cl 4 lvl (L.Sprint v) none] } ∧
      LogFieldsf L lvl fields format v s =
        { s with trace := s.trace ++ [Event.custom cl 3 lvl (L.Sprintf format v) fields] }) := by
  have h1 : Log L lvl v s = DoLogFields 4 lvl (L.Sprint v) none s := by
    unfold Log DoLog
    rw [if_pos hl, wrapInt_four]
  have h2 : LogFieldsf L lvl fields format v s =
      DoLogFields 3 lvl (L.Sprintf format v) fields s := by
    unfold LogFieldsf
    rw [if_pos hl]
  rw [h1, h2, DoLogFields_custom 4 lvl _ none s cl hc,
    DoLogFields_custom 3 lvl _ fields s cl hc]
  refine ⟨rfl, rfl, ?_⟩
  intro hesc
  simp [hesc]

theorem C3_custom_sink_gets_message_witness :
    Log goLib FATAL [Val.str "disk ", Val.str "full"] customState =
      { customState with trace := [Event.custom ⟨1⟩ 4 FATAL "disk full" none] } ∧
    LogFieldsf goLib INFO (some [("user", Val.int 7)]) "n=%d" [Val.int 2] customState =
      { customState with
        trace := [Event.custom ⟨1⟩ 3 INFO "n=2" (some [("user", Val.int 7)])] } := by
  have h := C3_custom_sink_gets_message goLib customState ⟨1⟩ FATAL
    [Val.str "disk ", Val.str "full"] none "" rfl (by decide)
  have h2 := C3_custom_sink_gets_message goLib customState ⟨1⟩ INFO
    [Val.int 2] (some [("user", Val.int 7)]) "n=%d" rfl (by decide)
  exact ⟨(h.2.2 rfl).1.trans (by decide), (h2.2.2 rfl).2.trans (by decide)⟩

/-- C4 (the code at the failing input): with a custom sink registered, `LogP`
and `LogPf` still call `Output` on the primary and on the error sink, and the
custom sink is not called. -/
theorem C4_LogP_writes_standard_sinks_despite_custom :
    customState.customLogger = some ⟨1⟩ ∧
    LogP goLib INFO "p " [Val.str "m"] customState =
      { customState with
        trace := [Event.output Sink.primary stderrLogger 3 "p [INFO] m"] } ∧
    LogPf goLib ERROR "p " "%s" [Val.str "m"] customState =
      { customState with
        trace := [Event.output Sink.err fileLogger 3 "p [ERROR] m"] } := by
  decide

/-- C5 (counterexample): with the primary threshold NONE, `Log(-1, "x")` is
admitted and writes the line `"x"` to the error sink. -/
theorem C5_none_admits_negative_level_counterexample :
    noneState.LogLevel = NOLOGGING ∧
    (Log goLib (-1) [Val.str "x"] noneState).trace =
      [Event.output Sink.err fileLogger 4 "x"] ∧
    Log goLib (-1) [Val.str "x"] noneState ≠ noneState := by
  decide

/-- C5 (amended): with the primary threshold NONE, for every level `lvl >= 0`
(FATAL to DEBUG among them) `Log`, `Logf` and `LogD` leave the state as it is:
no call on any sink. -/
theorem C5_none_disables_nonnegative_levels (L : Lib) (s : State) (depth lvl : Int)
    (format : String) (v : List Val) (hn : s.LogLevel = NOLOGGING) (hl : 0 ≤ lvl) :
    Log L lvl v s = s ∧ Logf L lvl format v s = s ∧ LogD L depth lvl v s = s := by
  have h : ¬ (s.LogLevel ≥ lvl) := by
    rw [hn]
    unfold NOLOGGING
    omega
  refine ⟨?_, ?_, ?_⟩
  · unfold Log
    rw [if_neg h]
  · unfold Logf
    rw [if_neg h]
  · unfold LogD
    rw [if_neg h]

theorem C5_none_disables_nonnegative_levels_witness :
    noneState.LogLevel = NOLOGGING ∧ (0 : Int) ≤ FATAL ∧
    (Log goLib FATAL [Val.str "x"] noneState = noneState ∧
      Logf goLib FATAL "%s" [Val.str "x"] noneState = noneState ∧
      LogD goLib 9 FATAL [Val.str "x"] noneState = noneState) :=
  ⟨rfl, by decide,
    C5_none_disables_nonnegative_levels goLib noneState 9 FATAL "%s" [Val.str "x"] rfl
      (by decide)⟩

/-- C6 (counterexample): with the error threshold DEBUG and the primary
threshold FATAL, `Log(ERROR, "x")` writes nothing to the error sink although
`ErrLogLevel >= ERROR`. -/
theorem C6_primary_gate_blocks_error_sink_counterexample :
    fatalState.customLogger = none ∧ fatalState.loggerErr = some fileLogger ∧
    fatalState.ErrLogLevel ≥ ERROR ∧
    Log goLib ERROR [Val.str "x"] fatalState = fatalState ∧
    ¬ ((newEvents fatalState (Log goLib ERROR [Val.str "x"] fatalState)).any
          (Event.isOutput Sink.err) = true ↔ fatalState.ErrLogLevel ≥ ERROR) := by
  decide

/-- C6 (amended): with an error sink `le` and no custom sink, `Log(lvl, v...)` makes
a call on the error sink if and only if both `LogLevel >= lvl` and
`ErrLogLevel >= lvl`; it is then the only call. -/
theorem C6_error_sink_iff_both_thresholds (L : Lib) (s : State) (le : Logger) (lvl : Int)
    (v : List Val) (hc : s.customLogger = none) (he : s.loggerErr = some le) :
    ((newEvents s (Log L lvl v s)).any (Event.isOutput Sink.err) = true ↔
      (s.LogLevel ≥ lvl ∧ s.ErrLogLevel ≥ lvl)) ∧
    (s.LogLevel ≥ lvl → s.ErrLogLevel ≥ lvl →
      newEvents s (Log L lvl v s) = [Event.output Sink.err le 4
        (s.LogPrefix.get lvl ++ (if s.escapeNewlines then EscapeNewlines (L.Sprint v)
          else L.Sprint v) ++ s.postFix)]) := by
  by_cases hp : s.LogLevel ≥ lvl
  · have h1 : Log L lvl v s = DoLogFields 4 lvl (L.Sprint v) none s := by
      unfold Log DoLog
      rw [if_pos hp, wrapInt_four]
    by_cases hl : s.ErrLogLevel ≥ lvl
    · rw [h1, DoLogFields_err 4 lvl _ none s le hc hl he, newEvents_append]
      simp [Event.isOutput, hp, hl]
    · have hne : ¬ (s.ErrLogLevel ≥ lvl ∧ s.loggerErr ≠ none) := fun h => hl h.1
      refine ⟨?_, fun _ h => absurd h hl⟩
      cases hlg : s.logger with
      | none =>
        rw [h1, DoLogFields_drop 4 lvl _ none s hc hne (by simp [hlg]), newEvents_self]
        simp [hl]
      | some lg =>
        rw [h1, DoLogFields_primary 4 lvl _ none s lg hc hne hp hlg, newEvents_append]
        simp [Event.isOutput, hl]
  · have h1 : Log L lvl v s = s := by
      unfold Log
      rw [if_neg hp]
    rw [h1, newEvents_self]
    refine ⟨?_, fun h => absurd h hp⟩
    simp [hp]

theorem C6_error_sink_iff_both_thresholds_witness :
    (newEvents bothState (Log goLib ERROR [Val.str "x"] bothState)).any
        (Event.isOutput Sink.err) = true ∧
    (newEvents bothState (Log goLib INFO [Val.str "x"] bothState)).any
        (Event.isOutput Sink.err) = false := by
  have h1 := C6_error_sink_iff_both_thresholds goLib bothState fileLogger ERROR
    [Val.str "x"] rfl rfl
  have h2 := C6_error_sink_iff_both_thresholds goLib bothState fileLogger INFO
    [Val.str "x"] rfl rfl
  refine ⟨h1.1.mpr (by decide), ?_⟩
  have h3 : ¬ (bothState.LogLevel ≥ INFO ∧ bothState.ErrLogLevel ≥ INFO) := by decide
  have h4 := mt h2.1.mp h3
  simpa using h4

/-! ## Claims on the configuration -/

/-- C7: `LogLevelSet(w)` sets `LogLevel` to the level of `w` when `w` is one of
fatal (0), error (1), warn (2), info (3), debug (4), none (-1) and otherwise
keeps it, and changes nothing else; `SetErrLogger(l, w)` stores `l`, does the same
on `ErrLogLevel`, and changes nothing else, in particular not `LogLevel`. -/
theorem C7_threshold_words (w : String) (l : Option Logger) (s : State) :
    LogLevelSet w s =
      { s with LogLevel :=
          if w = "fatal" then 0 else if w = "error" then 1 else if w = "warn" then 2
          else if w = "info" then 3 else if w = "debug" then 4 else if w = "none" then -1
          else s.LogLevel } ∧
    (LogLevelSet w s).ErrLogLevel = s.ErrLogLevel ∧
    SetErrLogger l w s =
      { s with
        loggerErr := l
        ErrLogLevel :=
          if w = "fatal" then 0 else if w = "error" then 1 else if w = "warn" then 2
          else if w = "info" then 3 else if w = "debug" then 4 else if w = "none" then -1
          else s.ErrLogLevel } ∧
    (SetErrLogger l w s).LogLevel = s.LogLevel := by
  unfold LogLevelSet SetErrLogger
  rw [lookup_LogLevelWords]
  repeat' split
  all_goals simp_all

/-- C8 (counterexample): `LogLevelSet("DEBUG")`, `SetLogger(l, "Warn")` and
`SetErrLogger(l, "DEBUG")` leave the threshold at ERROR although the words read
debug and warn in lower case. -/
theorem C8_setters_are_case_sensitive_counterexample :
    goLib.ToLower "DEBUG" = "debug" ∧ goLib.ToLower "Warn" = "warn" ∧
    (LogLevelSet "DEBUG" State.init).LogLevel = ERROR ∧
    (LogLevelSet "DEBUG" State.init).LogLevel ≠ DEBUG ∧
    (SetLogger (some stderrLogger) "Warn" State.init).LogLevel ≠ WARN ∧
    (SetErrLogger (some fileLogger) "DEBUG" State.init).ErrLogLevel ≠ DEBUG := by
  decide

/-- C8 (amended): `SetupLogging`, `SetupLoggingLong` and `SetupLoggingFile` set the
primary threshold to the level that `LogLevelWords` gives the lower-cased word;
`LogLevelSet`, `SetLogger` and `SetErrLogger` take the word as it is and set their
threshold to the level that `LogLevelWords` gives the word itself. -/
theorem C8_case_folding_only_in_setup (L : Lib) (w : String) (l : Option Logger) (f : Nat)
    (s : State) :
    (∀ lvl : Int, (L.ToLower w, lvl) ∈ LogLevelWords →
      (SetupLogging L w s).LogLevel = lvl ∧ (SetupLoggingLong L w s).LogLevel = lvl ∧
      (SetupLoggingFile L f w s).LogLevel = lvl) ∧
    (∀ lvl : Int, (w, lvl) ∈ LogLevelWords →
      (LogLevelSet w s).LogLevel = lvl ∧ (SetLogger l w s).LogLevel = lvl ∧
      (SetErrLogger l w s).ErrLogLevel = lvl) := by
  constructor
  · intro lvl h
    have hk := lookup_of_mem_LogLevelWords (L.ToLower w) lvl h
    simp [SetupLogging, SetupLoggingLong, SetupLoggingFile, SetLogger, LogLevelSet, hk]
  · intro lvl h
    have hk := lookup_of_mem_LogLevelWords w lvl h
    simp [SetLogger, LogLevelSet, SetErrLogger, hk]

theorem C8_case_folding_only_in_setup_witness :
    (SetupLogging goLib "DEBUG" State.init).LogLevel = DEBUG ∧
    (SetErrLogger (some fileLogger) "warn" State.init).ErrLogLevel = WARN := by
  have h := C8_case_folding_only_in_setup goLib "DEBUG" none 0 State.init
  have h2 := C8_case_folding_only_in_setup goLib "warn" (some fileLogger) 0 State.init
  exact ⟨(h.1 DEBUG (by decide)).1, (h2.2 WARN (by decide)).2.2⟩

/-- C9 (the code at the failing input): after `SetErrLogger(l, "error")` the
variable `loggerErr` holds `l`, and `GetErrLogger()` returns the primary logger:
nil when none is set, the stderr logger when that is the primary one. -/
theorem C9_GetErrLogger_returns_primary :
    (SetErrLogger (some fileLogger) "error" State.init).loggerErr = some fileLogger ∧
    GetErrLogger (SetErrLogger (some fileLogger) "error" State.init) = none ∧
    GetErrLogger (SetErrLogger (some fileLogger) "error" warnState) = some stderrLogger := by
  decide

/-! ## Claims on the context prefixes -/

/-- C10: `FromContext(NewContext(c, t)) = t`; `FromContext(NewContextWrap(c, t))` is
`FromContext(c) + " " + t` when `c` holds a string under the prefix key and `t`
when it does not; a carrier without prefix reads as the empty string and two
wraps of it with "a" and "b" read "a b"; the derived carriers hold under every
other key what `c` holds. -/
theorem C10_prefix_chain (c : Context) (t : String) :
    FromContext (NewContext c t) = t ∧
    (∀ p : String, c.Value CtxKey.logContextPrefixKey = some (CtxVal.str p) →
      FromContext c = p ∧ FromContext (NewContextWrap c t) = FromContext c ++ " " ++ t) ∧
    ((∀ p : String, c.Value CtxKey.logContextPrefixKey ≠ some (CtxVal.str p)) →
      FromContext c = "" ∧ FromContext (NewContextWrap c t) = t ∧
      FromContext (NewContextWrap (NewContextWrap c "a") "b") = "a b") ∧
    (∀ k : CtxKey, k ≠ CtxKey.logContextPrefixKey →
      (NewContext c t).Value k = c.Value k ∧ (NewContextWrap c t).Value k = c.Value k) := by
  have hnone : ∀ (u : String),
      (∀ p : String, c.Value CtxKey.logContextPrefixKey ≠ some (CtxVal.str p)) →
      NewContextWrap c u = Context.withValue c CtxKey.logContextPrefixKey (CtxVal.str u) := by
    intro u h
    unfold NewContextWrap
    split
    · next p hp => exact absurd hp (h p)
    · rfl
  refine ⟨?_, ?_, ?_, ?_⟩
  · simp [FromContext, NewContext, Context.Value]
  · intro p hp
    simp [FromContext, NewContextWrap, Context.Value, hp, sprintfSS]
  · intro h
    refine ⟨?_, ?_, ?_⟩
    · unfold FromContext
      split
      · next p hp => exact absurd hp (h p)
      · rfl
    · rw [hnone t h]
      simp [FromContext, Context.Value]
    · rw [hnone "a" h]
      simp [FromContext, NewContextWrap, Context.Value, sprintfSS]
  · intro k hk
    have hk2 : ¬ (CtxKey.logContextPrefixKey = k) := fun h => hk h.symm
    constructor
    · simp [NewContext, Context.Value, hk2]
    · unfold NewContextWrap
      split <;> simp [Context.Value, hk2]

theorem C10_prefix_chain_witness :
    FromContext (NewContextWrap (NewContextWrap plainCtx "a") "b") = "a b" ∧
    FromContext (NewContextWrap (NewContext plainCtx "") "t") = " t" ∧
    (NewContextWrap plainCtx "t").Value (CtxKey.other 1) = some (CtxVal.other 5) := by
  have h := C10_prefix_chain plainCtx "t"
  have h2 := C10_prefix_chain (NewContext plainCtx "") "t"
  exact ⟨(h.2.2.1 (fun p => by simp [plainCtx, Context.Value])).2.2, ((h2.2.1 "" (by decide)).2).trans (by decide),
    (h.2.2.2 (CtxKey.other 1) (by decide)).2.trans (by decide)⟩

/-! ## Lemmas on the context format -/

theorem length_pos_iff_ne_empty (s : String) : s.length > 0 ↔ s ≠ "" := by
  cases s with
  | mk d =>
    cases d with
    | nil => simp [String.length]
    | cons c cs =>
      simp [String.length]
      intro h
      have := congrArg String.data h
      simp at this

theorem ctxFormat_eq (ctx : Context) (format : String) :
    ctxFormat ctx format =
      if FromContext ctx = "" then format else FromContext ctx ++ " " ++ format := by
  unfold ctxFormat sprintfSS
  by_cases h : FromContext ctx = ""
  · simp [h]
  · have := (length_pos_iff_ne_empty (FromContext ctx)).mpr h
    simp [h, this]

/-! ## Claims on the carrier functions -/

/-- C11 (counterexample): with the prefix `%d`, `LogCtx(ctx, 2, ERROR, "x")` emits
`"%d x"`, while `Sprintf("%d" + " " + "x")` is `"%!d(MISSING) x"`. -/
theorem C11_LogCtx_prefixes_after_formatting_counterexample :
    FromContext verbCtx = "%d" ∧ warnState.LogLevel ≥ ERROR ∧
    (LogCtx goLib verbCtx 2 ERROR "x" [] warnState).trace =
      [Event.output Sink.primary stderrLogger 4 "[ERROR] %d x"] ∧
    goLib.Sprintf (FromContext verbCtx ++ " " ++ "x") [] = "%!d(MISSING) x" ∧
    LogCtx goLib verbCtx 2 ERROR "x" [] warnState ≠
      DoLog (wrapInt (2 + 1)) ERROR (goLib.Sprintf (FromContext verbCtx ++ " " ++ "x") [])
        warnState := by
  decide

/-- C11 (amended): when admitted, `DebugCtx`, `InfoCtx`, `WarnCtx`, `ErrorCtx`,
`LogThrottleCtx` and `LogThrottleKeyCtx` hand on the message
`Sprintf(FromContext(ctx) + " " + f, v...)` when the prefix is not empty and
`Sprintf(f, v...)` when it is; `LogCtx` formats first and hands on
`FromContext(ctx) + " " + Sprintf(f, v...)` when the prefix is not empty and
`Sprintf(f, v...)` when it is. -/
theorem C11_ctx_message (L : Lib) (ctx : Context) (f : String) (v : List Val) (s : State)
    (r : Pkg) (now : Nat) (depth lvl limit : Int) (key : String) :
    (s.LogLevel ≥ DEBUG → DebugCtx L ctx f v s = DoLog 3 DEBUG
      (L.Sprintf (if FromContext ctx = "" then f else FromContext ctx ++ " " ++ f) v) s) ∧
    (s.LogLevel ≥ INFO → InfoCtx L ctx f v s = DoLog 3 INFO
      (L.Sprintf (if FromContext ctx = "" then f else FromContext ctx ++ " " ++ f) v) s) ∧
    (s.LogLevel ≥ WARN → WarnCtx L ctx f v s = DoLog 3 WARN
      (L.Sprintf (if FromContext ctx = "" then f else FromContext ctx ++ " " ++ f) v) s) ∧
    (s.LogLevel ≥ ERROR → ErrorCtx L ctx f v s = DoLog 3 ERROR
      (L.Sprintf (if FromContext ctx = "" then f else FromContext ctx ++ " " ++ f) v) s) ∧
    (r.LogLevel ≥ lvl → LogThrottleCtx L now ctx lvl limit f v r =
      doLogThrottle now 4 lvl limit
        (if FromContext ctx = "" then f else FromContext ctx ++ " " ++ f)
        (L.Sprintf (if FromContext ctx = "" then f else FromContext ctx ++ " " ++ f) v) r) ∧
    (r.LogLevel ≥ lvl → LogThrottleKeyCtx L now ctx lvl limit key f v r =
      doLogThrottle now 4 lvl limit key
        (L.Sprintf (if FromContext ctx = "" then f else FromContext ctx ++ " " ++ f) v) r) ∧
    (s.LogLevel ≥ lvl → LogCtx L ctx depth lvl f v s = DoLog (wrapInt (depth + 1)) lvl
      (if FromContext ctx = "" then L.Sprintf f v
        else FromContext ctx ++ " " ++ L.Sprintf f v) s) := by
  refine ⟨?_, ?_, ?_, ?_, ?_, ?_, ?_⟩
  · intro h
    have h4 : s.LogLevel ≥ 4 := h
    rw [← ctxFormat_eq]
    unfold DebugCtx
    rw [if_pos h4]
  · intro h
    have h3 : s.LogLevel ≥ 3 := h
    rw [← ctxFormat_eq]
    unfold InfoCtx
    rw [if_pos h3]
  · intro h
    have h2 : s.LogLevel ≥ 2 := h
    rw [← ctxFormat_eq]
    unfold WarnCtx
    rw [if_pos h2]
  · intro h
    have h1 : s.LogLevel ≥ 1 := h
    rw [← ctxFormat_eq]
    unfold ErrorCtx
    rw [if_pos h1]
  · intro h
    rw [← ctxFormat_eq]
    unfold LogThrottleCtx
    rw [if_neg (not_lt.mpr h)]
  · intro h
    rw [← ctxFormat_eq]
    unfold LogThrottleKeyCtx
    rw [if_neg (not_lt.mpr h)]
  · intro h
    have hm := ctxFormat_eq ctx (L.Sprintf f v)
    unfold ctxFormat sprintfSS at hm
    unfold LogCtx sprintfSS
    rw [if_pos h]
    simp only [] at hm ⊢
    rw [hm]

theorem C11_ctx_message_witness :
    InfoCtx goLib reqCtx "n=%d" [Val.int 3] bothState =
      { bothState with
        trace := [Event.output Sink.primary stderrLogger 4 "[INFO] req-7 n=3"] } ∧
    LogCtx goLib reqCtx 2 INFO "n=%d" [Val.int 3] bothState =
      { bothState with
        trace := [Event.output Sink.primary stderrLogger 4 "[INFO] req-7 n=3"] } ∧
    InfoCtx goLib plainCtx "n=%d" [Val.int 3] bothState =
      { bothState with
        trace := [Event.output Sink.primary stderrLogger 4 "[INFO] n=3"] } := by
  have h := C11_ctx_message goLib reqCtx "n=%d" [Val.int 3] bothState Pkg.init 0 2 INFO 1 "k"
  have h2 := C11_ctx_message goLib plainCtx "n=%d" [Val.int 3] bothState Pkg.init 0 2 INFO 1 "k"
  exact ⟨(h.2.1 (by decide)).trans (by decide),
    (h.2.2.2.2.2.2 (by decide)).trans (by decide),
    (h2.2.1 (by decide)).trans (by decide)⟩

/-! ## Lemmas on the throttle path -/

theorem DoLogFields_cases (depth logLvl : Int) (msg : String) (fields : Fields) (s : State) :
    DoLogFields depth logLvl msg fields s = s ∨
    ∃ e, DoLogFields depth logLvl msg fields s = { s with trace := s.trace ++ [e] } := by
  rcases Option.eq_none_or_eq_some s.customLogger with hc | ⟨cl, hc⟩
  · by_cases he : s.ErrLogLevel ≥ logLvl ∧ s.loggerErr ≠ none
    · obtain ⟨le, hle⟩ := Option.ne_none_iff_exists'.mp he.2
      exact Or.inr ⟨_, DoLogFields_err depth logLvl msg fields s le hc he.1 hle⟩
    · by_cases hp : s.LogLevel ≥ logLvl ∧ s.logger ≠ none
      · obtain ⟨lg, hlg⟩ := Option.ne_none_iff_exists'.mp hp.2
        exact Or.inr ⟨_, DoLogFields_primary depth logLvl msg fields s lg hc he hp.1 hlg⟩
      · exact Or.inl (DoLogFields_drop depth logLvl msg fields s hc he hp)
  · exact Or.inr ⟨_, DoLogFields_custom depth logLvl msg fields s cl hc⟩

theorem DoLog_cases (depth logLvl : Int) (msg : String) (s : State) :
    DoLog depth logLvl msg s = s ∨
    ∃ e, DoLog depth logLvl msg s = { s with trace := s.trace ++ [e] } :=
  DoLogFields_cases _ logLvl msg none s

theorem DoLog_LogLevel (depth logLvl : Int) (msg : String) (s : State) :
    (DoLog depth logLvl msg s).LogLevel = s.LogLevel := by
  rcases DoLog_cases depth logLvl msg s with h | ⟨e, h⟩ <;> rw [h]

theorem DoLog_trace_length (depth logLvl : Int) (msg : String) (s : State) :
    s.trace.length ≤ (DoLog depth logLvl msg s).trace.length ∧
    (DoLog depth logLvl msg s).trace.length ≤ s.trace.length + 1 := by
  rcases DoLog_cases depth logLvl msg s with h | ⟨e, h⟩ <;> rw [h] <;> simp

theorem doLogThrottle_present (now : Nat) (depth lvl limit : Int) (key msg : String) (r : Pkg)
    (p : Nat) (th : Throttler) (hl : r.LogLevel ≥ lvl)
    (hk : r.logThrottles.lookup key = some p) (hp : r.throttlers[p]? = some th) :
    doLogThrottle now depth lvl limit key msg r =
      if (th.Throttle now).1 = true then
        { r with
          throttlers := r.throttlers.set p (th.Throttle now).2
          calls := r.calls ++ [(Call.lock, r.trace.length),
            (Call.throttle p true, r.trace.length), (Call.unlock, r.trace.length)]
          mapOps := r.mapOps ++ [(MapOp.read key, r.calls.length + 1)] }
      else
        { r with
          toState := DoLog depth lvl msg r.toState
          throttlers := r.throttlers.set p (th.Throttle now).2
          calls := r.calls ++ [(Call.lock, r.trace.length),
            (Call.throttle p false, r.trace.length), (Call.unlock, r.trace.length)]
          mapOps := r.mapOps ++ [(MapOp.read key, r.calls.length + 1)] } := by
  unfold doLogThrottle
  rw [if_neg (not_lt.mpr hl)]
  simp only [Pkg.lookupOrInsert, Pkg.call, Pkg.mapOp, hk, Pkg.Throttle, hp]
  cases hres : (th.Throttle now).1 <;> simp

theorem doLogThrottle_absent (now : Nat) (depth lvl limit : Int) (key msg : String) (r : Pkg)
    (hl : r.LogLevel ≥ lvl) (hk : r.logThrottles.lookup key = none) :
    doLogThrottle now depth lvl limit key msg r =
      if ((NewThrottler limit (3600 * Second) now).Throttle now).1 = true then
        { r with
          logThrottles := (key, r.throttlers.length) :: r.logThrottles
          throttlers := r.throttlers ++ [((NewThrottler limit (3600 * Second) now).Throttle now).2]
          calls := r.calls ++ [(Call.lock, r.trace.length),
            (Call.throttle r.throttlers.length true, r.trace.length),
            (Call.unlock, r.trace.length)]
          mapOps := r.mapOps ++ [(MapOp.read key, r.calls.length + 1),
            (MapOp.write key r.throttlers.length, r.calls.length + 1)] }
      else
        { r with
          toState := DoLog depth lvl msg r.toState
          logThrottles := (key, r.throttlers.length) :: r.logThrottles
          throttlers := r.throttlers ++ [((NewThrottler limit (3600 * Second) now).Throttle now).2]
          calls := r.calls ++ [(Call.lock, r.trace.length),
            (Call.throttle r.throttlers.length false, r.trace.length),
            (Call.unlock, r.trace.length)]
          mapOps := r.mapOps ++ [(MapOp.read key, r.calls.length + 1),
            (MapOp.write key r.throttlers.length, r.calls.length + 1)] } := by
  unfold doLogThrottle
  rw [if_neg (not_lt.mpr hl)]
  simp only [Pkg.lookupOrInsert, Pkg.call, Pkg.mapOp, hk, Pkg.Throttle]
  cases hres : ((NewThrottler limit (3600 * Second) now).Throttle now).1 <;> simp [hres]

theorem doLogThrottle_dangling (now : Nat) (depth lvl limit : Int) (key msg : String) (r : Pkg)
    (p : Nat) (hl : r.LogLevel ≥ lvl) (hk : r.logThrottles.lookup key = some p)
    (hp : r.throttlers[p]? = none) :
    doLogThrottle now depth lvl limit key msg r =
      { r with
        calls := r.calls ++ [(Call.lock, r.trace.length), (Call.unlock, r.trace.length)]
        mapOps := r.mapOps ++ [(MapOp.read key, r.calls.length + 1)] } := by
  unfold doLogThrottle
  rw [if_neg (not_lt.mpr hl)]
  simp only [Pkg.lookupOrInsert, Pkg.call, Pkg.mapOp, hk, Pkg.Throttle, hp]
  simp

theorem doLogThrottle_toState_cases (now : Nat) (depth lvl limit : Int) (key msg : String)
    (r : Pkg) (hl : r.LogLevel ≥ lvl) :
    (doLogThrottle now depth lvl limit key msg r).toState = r.toState ∨
    (doLogThrottle now depth lvl limit key msg r).toState = DoLog depth lvl msg r.toState := by
  rcases Option.eq_none_or_eq_some (r.logThrottles.lookup key) with hk | ⟨p, hk⟩
  · rw [doLogThrottle_absent now depth lvl limit key msg r hl hk]
    split
    · exact Or.inl rfl
    · exact Or.inr rfl
  · rcases Option.eq_none_or_eq_some (r.throttlers[p]?) with hp | ⟨th, hp⟩
    · rw [doLogThrottle_dangling now depth lvl limit key msg r p hl hk hp]
      exact Or.inl rfl
    · rw [doLogThrottle_present now depth lvl limit key msg r p th hl hk hp]
      split
      · exact Or.inl rfl
      · exact Or.inr rfl

theorem Throttle_config (th : Throttler) (now : Nat) :
    (th.Throttle now).2.limit = th.limit ∧ (th.Throttle now).2.window = th.window := by
  unfold Throttler.Throttle
  by_cases h1 : now ≥ th.start + th.window <;> simp only [h1, if_true, if_false] <;>
    split <;> simp

theorem lookup_cons_ne {β : Type} (l : List (String × β)) (k key : String) (b : β)
    (h : k ≠ key) : List.lookup k ((key, b) :: l) = List.lookup k l := by
  have hb : (k == key) = false := by simpa using h
  simp [List.lookup, hb]

theorem lookup_cons_of_some {β : Type} (l : List (String × β)) (k key : String) (b q : β)
    (ha : List.lookup key l = none) (h : List.lookup k l = some q) :
    List.lookup k ((key, b) :: l) = some q := by
  by_cases hk : k = key
  · subst hk
    rw [ha] at h
    cases h
  · rw [lookup_cons_ne l k key b hk, h]

/-! ## Claims on the throttle registry -/

/-- C13: a call `doLogThrottle` that the primary threshold does not admit
changes nothing. An admitted call with an absent key adds to the registry the
key with the address of a new limiter built from `(limit, 3600 s)`; with a
present key it leaves the registry as it is and uses the limiter found, whose
limit and window stay what they were whatever `limit` is. In both cases the
calls made are lock, one attempt on the limiter of the key, unlock; every other
key and every other limiter is unchanged, and every key present before is
still mapped to the same limiter. -/
theorem C13_registry_lookup_or_insert (now : Nat) (depth lvl limit : Int) (key msg : String)
    (r : Pkg) :
    (r.LogLevel < lvl → doLogThrottle now depth lvl limit key msg r = r) ∧
    (r.LogLevel ≥ lvl → r.logThrottles.lookup key = none →
      (doLogThrottle now depth lvl limit key msg r).logThrottles =
        (key, r.throttlers.length) :: r.logThrottles ∧
      (doLogThrottle now depth lvl limit key msg r).throttlers =
        r.throttlers ++ [((NewThrottler limit (3600 * Second) now).Throttle now).2] ∧
      newCalls r (doLogThrottle now depth lvl limit key msg r) =
        [(Call.lock, r.trace.length),
         (Call.throttle r.throttlers.length
            ((NewThrottler limit (3600 * Second) now).Throttle now).1, r.trace.length),
         (Call.unlock, r.trace.length)] ∧
      (∀ k q, r.logThrottles.lookup k = some q →
        (doLogThrottle now depth lvl limit key msg r).logThrottles.lookup k = some q) ∧
      (∀ k, k ≠ key → (doLogThrottle now depth lvl limit key msg r).logThrottles.lookup k =
        r.logThrottles.lookup k) ∧
      (∀ q, q < r.throttlers.length →
        (doLogThrottle now depth lvl limit key msg r).throttlers[q]? = r.throttlers[q]?)) ∧
    (∀ p th, r.LogLevel ≥ lvl → r.logThrottles.lookup key = some p →
      r.throttlers[p]? = some th →
      (doLogThrottle now depth lvl limit key msg r).logThrottles = r.logThrottles ∧
      (doLogThrottle now depth lvl limit key msg r).throttlers =
        r.throttlers.set p (th.Throttle now).2 ∧
      (th.Throttle now).2.limit = th.limit ∧ (th.Throttle now).2.window = th.window ∧
      newCalls r (doLogThrottle now depth lvl limit key msg r) =
        [(Call.lock, r.trace.length), (Call.throttle p (th.Throttle now).1, r.trace.length),
         (Call.unlock, r.trace.length)] ∧
      (∀ q, q ≠ p →
        (doLogThrottle now depth lvl limit key msg r).throttlers[q]? = r.throttlers[q]?)) := by
  refine ⟨?_, ?_, ?_⟩
  · intro h
    unfold doLogThrottle
    rw [if_pos h]
  · intro hl hk
    rw [doLogThrottle_absent now depth lvl limit key msg r hl hk]
    cases hres : ((NewThrottler limit (3600 * Second) now).Throttle now).1 <;>
      simp only [if_true, if_false, Bool.false_eq_true, newCalls, List.drop_left,
        true_and] <;>
      refine ⟨?_, ?_, ?_⟩
    all_goals first
      | exact fun k q h => lookup_cons_of_some r.logThrottles k key _ q hk h
      | exact fun k h => lookup_cons_ne r.logThrottles k key _ h
      | (intro q hq; exact List.getElem?_append_left hq)
  · intro p th hl hk hp
    rw [doLogThrottle_present now depth lvl limit key msg r p th hl hk hp]
    have hcfg := Throttle_config th now
    cases hres : (th.Throttle now).1 <;>
      simp only [if_true, if_false, Bool.false_eq_true, newCalls, List.drop_left,
        true_and, hcfg.1, hcfg.2] <;>
      (intro q hq; rw [List.getElem?_set]; rw [if_neg (Ne.symm hq)])

theorem C13_registry_lookup_or_insert_witness :
    (doLogThrottle 9 4 ERROR 7 "db" "m" dbPkg).logThrottles = [("db", 0)] ∧
    (doLogThrottle 9 4 ERROR 7 "db" "m" dbPkg).throttlers =
      [{ limit := 2, window := 3600 * Second, start := 5, count := 1 }] ∧
    (doLogThrottle 9 4 ERROR 7 "net" "m" dbPkg).logThrottles = [("net", 1), ("db", 0)] ∧
    (doLogThrottle 9 4 ERROR 7 "net" "m" dbPkg).throttlers =
      [NewThrottler 2 (3600 * Second) 5,
       { limit := 7, window := 3600 * Second, start := 9, count := 1 }] ∧
    doLogThrottle 9 4 INFO 7 "net" "m" dbPkg = dbPkg := by
  have h := C13_registry_lookup_or_insert 9 4 ERROR 7 "db" "m" dbPkg
  have h2 := C13_registry_lookup_or_insert 9 4 ERROR 7 "net" "m" dbPkg
  have h3 := C13_registry_lookup_or_insert 9 4 INFO 7 "net" "m" dbPkg
  have hp := h.2.2 0 (NewThrottler 2 (3600 * Second) 5) (by decide) (by decide) (by decide)
  have ha := h2.2.1 (by decide) (by decide)
  exact ⟨hp.1.trans (by decide), hp.2.1.trans (by decide), ha.1.trans (by decide),
    ha.2.1.trans (by decide), h3.1 (by decide)⟩

theorem doLogThrottle_registers (now : Nat) (depth lvl limit : Int) (key msg : String)
    (r : Pkg) (hl : r.LogLevel ≥ lvl) (hk : r.logThrottles.lookup key = none) :
    (doLogThrottle now depth lvl limit key msg r).logThrottles =
      (key, r.throttlers.length) :: r.logThrottles := by
  rw [doLogThrottle_absent now depth lvl limit key msg r hl hk]
  split <;> rfl

/-- C14 (counterexample): with the prefix `req-7`, `LogThrottleCtx(ctx, ERROR, 1, "f")`
registers its limiter under the key `"req-7 f"`; the key `"f"` stays absent. -/
theorem C14_LogThrottleCtx_keys_by_prefixed_format_counterexample :
    FromContext reqCtx = "req-7" ∧ warnPkg.LogLevel ≥ ERROR ∧
    (LogThrottleCtx goLib 0 reqCtx ERROR 1 "f" [] warnPkg).logThrottles = [("req-7 f", 0)] ∧
    (LogThrottleCtx goLib 0 reqCtx ERROR 1 "f" [] warnPkg).logThrottles.lookup "f" = none ∧
    (LogThrottle goLib 0 ERROR 1 "f" [] warnPkg).logThrottles = [("f", 0)] := by
  decide

/-- C14 (amended): when admitted, `LogThrottle` and `LogThrottleD` call
`doLogThrottle` with the format `f` as key, `LogThrottleKey` and
`LogThrottleKeyCtx` with the key of the caller, and `LogThrottleCtx` with `f` when
the prefix of the carrier is empty and with `FromContext(ctx) + " " + f` when it
is not; a key that is absent is the one registered. -/
theorem C14_throttle_keys (L : Lib) (now : Nat) (ctx : Context) (depth lvl limit : Int)
    (key f : String) (v : List Val) (r : Pkg) (hl : r.LogLevel ≥ lvl) :
    LogThrottle L now lvl limit f v r = doLogThrottle now 4 lvl limit f (L.Sprintf f v) r ∧
    LogThrottleD L now depth lvl limit f v r =
      doLogThrottle now depth lvl limit f (L.Sprintf f v) r ∧
    LogThrottleKey L now lvl limit key f v r =
      doLogThrottle now 4 lvl limit key (L.Sprintf f v) r ∧
    LogThrottleKeyCtx L now ctx lvl limit key f v r =
      doLogThrottle now 4 lvl limit key (L.Sprintf (ctxFormat ctx f) v) r ∧
    LogThrottleCtx L now ctx lvl limit f v r =
      doLogThrottle now 4 lvl limit
        (if FromContext ctx = "" then f else FromContext ctx ++ " " ++ f)
        (L.Sprintf (ctxFormat ctx f) v) r ∧
    (r.logThrottles.lookup f = none →
      (LogThrottle L now lvl limit f v r).logThrottles =
        (f, r.throttlers.length) :: r.logThrottles ∧
      (LogThrottleD L now depth lvl limit f v r).logThrottles =
        (f, r.throttlers.length) :: r.logThrottles) ∧
    (r.logThrottles.lookup key = none →
      (LogThrottleKey L now lvl limit key f v r).logThrottles =
        (key, r.throttlers.length) :: r.logThrottles ∧
      (LogThrottleKeyCtx L now ctx lvl limit key f v r).logThrottles =
        (key, r.throttlers.length) :: r.logThrottles) ∧
    (r.logThrottles.lookup
        (if FromContext ctx = "" then f else FromContext ctx ++ " " ++ f) = none →
      (LogThrottleCtx L now ctx lvl limit f v r).logThrottles =
        ((if FromContext ctx = "" then f else FromContext ctx ++ " " ++ f),
          r.throttlers.length) :: r.logThrottles) := by
  have hn : ¬ r.LogLevel < lvl := not_lt.mpr hl
  have h1 : LogThrottle L now lvl limit f v r =
      doLogThrottle now 4 lvl limit f (L.Sprintf f v) r := by
    unfold LogThrottle
    rw [if_neg hn]
  have h2 : LogThrottleD L now depth lvl limit f v r =
      doLogThrottle now depth lvl limit f (L.Sprintf f v) r := by
    unfold LogThrottleD
    rw [if_neg hn]
  have h3 : LogThrottleKey L now lvl limit key f v r =
      doLogThrottle now 4 lvl limit key (L.Sprintf f v) r := by
    unfold LogThrottleKey
    rw [if_neg hn]
  have h4 : LogThrottleKeyCtx L now ctx lvl limit key f v r =
      doLogThrottle now 4 lvl limit key (L.Sprintf (ctxFormat ctx f) v) r := by
    unfold LogThrottleKeyCtx
    rw [if_neg hn]
  have h5 : LogThrottleCtx L now ctx lvl limit f v r =
      doLogThrottle now 4 lvl limit
        (if FromContext ctx = "" then f else FromContext ctx ++ " " ++ f)
        (L.Sprintf (ctxFormat ctx f) v) r := by
    rw [← ctxFormat_eq]
    unfold LogThrottleCtx
    rw [if_neg hn]
  refine ⟨h1, h2, h3, h4, h5, ?_, ?_, ?_⟩
  · intro hk
    rw [h1, h2]
    exact ⟨doLogThrottle_registers now 4 lvl limit f _ r hl hk,
      doLogThrottle_registers now depth lvl limit f _ r hl hk⟩
  · intro hk
    rw [h3, h4]
    exact ⟨doLogThrottle_registers now 4 lvl limit key _ r hl hk,
      doLogThrottle_registers now 4 lvl limit key _ r hl hk⟩
  · intro hk
    rw [h5]
    exact doLogThrottle_registers now 4 lvl limit _ _ r hl hk

theorem C14_throttle_keys_witness :
    (LogThrottle goLib 0 ERROR 1 "f %d" [Val.int 1] warnPkg).logThrottles = [("f %d", 0)] ∧
    (LogThrottleKey goLib 0 ERROR 1 "k" "f %d" [Val.int 1] warnPkg).logThrottles =
      [("k", 0)] ∧
    (LogThrottleCtx goLib 0 plainCtx ERROR 1 "f %d" [Val.int 1] warnPkg).logThrottles =
      [("f %d", 0)] := by
  have h := C14_throttle_keys goLib 0 plainCtx 4 ERROR 1 "k" "f %d" [Val.int 1] warnPkg
    (by decide)
  exact ⟨(h.2.2.2.2.2.1 (by decide)).1.trans (by decide),
    (h.2.2.2.2.2.2.1 (by decide)).1.trans (by decide),
    (h.2.2.2.2.2.2.2 (by decide)).trans (by decide)⟩

/-! ## Claims on the locking order -/

/-- C20 (counterexample): in an admitted call of `doLogThrottle` the calls are
lock, attempt, unlock in this order: the unlock does not precede the attempt. -/
theorem C20_attempt_before_unlock_counterexample :
    warnPkg.LogLevel ≥ ERROR ∧
    (newCalls warnPkg (doLogThrottle 0 4 ERROR 1 "k" "m" warnPkg)).map Prod.fst =
      [Call.lock, Call.throttle 0 false, Call.unlock] ∧
    [Call.unlock, Call.throttle 0 false].isSublist
      ((newCalls warnPkg (doLogThrottle 0 4 ERROR 1 "k" "m" warnPkg)).map Prod.fst) = false ∧
    [Call.throttle 0 false, Call.unlock].isSublist
      ((newCalls warnPkg (doLogThrottle 0 4 ERROR 1 "k" "m" warnPkg)).map Prod.fst) = true := by
  decide

/-- C20 (amended): in every admitted call of `doLogThrottle` the calls on the
mutex and the limiter are exactly lock, one attempt on the limiter of the key,
unlock, in this order. The map is read, and written when the key is absent,
after the lock and before the attempt (the stamp of the accesses is the number
of calls made before the call plus the lock). All three calls are made before
any sink call of the call (their stamp is the number of sink calls made before
the call); the sink calls are those of `DoLog(depth, lvl, msg)` when the attempt
was not skipped and none when it was, and the sink calls made before are
kept. -/
theorem C20_lock_attempt_unlock_then_write (now : Nat) (depth lvl limit : Int)
    (key msg : String) (r : Pkg) (hl : r.LogLevel ≥ lvl) :
    (r.logThrottles.lookup key = none →
      newCalls r (doLogThrottle now depth lvl limit key msg r) =
        [(Call.lock, r.trace.length),
         (Call.throttle r.throttlers.length
            ((NewThrottler limit (3600 * Second) now).Throttle now).1, r.trace.length),
         (Call.unlock, r.trace.length)] ∧
      newMapOps r (doLogThrottle now depth lvl limit key msg r) =
        [(MapOp.read key, r.calls.length + 1),
         (MapOp.write key r.throttlers.length, r.calls.length + 1)] ∧
      (doLogThrottle now depth lvl limit key msg r).toState =
        if ((NewThrottler limit (3600 * Second) now).Throttle now).1 = true then r.toState
        else DoLog depth lvl msg r.toState) ∧
    (∀ p th, r.logThrottles.lookup key = some p → r.throttlers[p]? = some th →
      newCalls r (doLogThrottle now depth lvl limit key msg r) =
        [(Call.lock, r.trace.length), (Call.throttle p (th.Throttle now).1, r.trace.length),
         (Call.unlock, r.trace.length)] ∧
      newMapOps r (doLogThrottle now depth lvl limit key msg r) =
        [(MapOp.read key, r.calls.length + 1)] ∧
      (doLogThrottle now depth lvl limit key msg r).toState =
        if (th.Throttle now).1 = true then r.toState else DoLog depth lvl msg r.toState) ∧
    r.trace.length ≤ (doLogThrottle now depth lvl limit key msg r).trace.length ∧
    (doLogThrottle now depth lvl limit key msg r).trace.take r.trace.length = r.trace := by
  refine ⟨?_, ?_, ?_⟩
  · intro hk
    rw [doLogThrottle_absent now depth lvl limit key msg r hl hk]
    cases hres : ((NewThrottler limit (3600 * Second) now).Throttle now).1 <;>
      simp [newCalls, newMapOps]
  · intro p th hk hp
    rw [doLogThrottle_present now depth lvl limit key msg r p th hl hk hp]
    cases hres : (th.Throttle now).1 <;> simp [newCalls, newMapOps]
  · have htr : ∀ s : State, s = r.toState ∨ s = DoLog depth lvl msg r.toState →
        r.trace.length ≤ s.trace.length ∧ s.trace.take r.trace.length = r.trace := by
      intro s hs
      rcases hs with hs | hs
      · rw [hs]
        simp
      · rw [hs]
        rcases DoLog_cases depth lvl msg r.toState with h | ⟨e, h⟩ <;> rw [h] <;> simp
    exact htr _ (doLogThrottle_toState_cases now depth lvl limit key msg r hl)

theorem C20_lock_attempt_unlock_then_write_witness :
    (newCalls dbPkg (doLogThrottle 9 4 ERROR 7 "db" "m" dbPkg) =
        [(Call.lock, 0), (Call.throttle 0 false, 0), (Call.unlock, 0)] ∧
      newMapOps dbPkg (doLogThrottle 9 4 ERROR 7 "db" "m" dbPkg) = [(MapOp.read "db", 1)] ∧
      (doLogThrottle 9 4 ERROR 7 "db" "m" dbPkg).trace =
        [Event.output Sink.primary stderrLogger 5 "[ERROR] m"]) ∧
    (newCalls dbPkg (doLogThrottle 9 4 ERROR 0 "net" "m" dbPkg) =
        [(Call.lock, 0), (Call.throttle 1 true, 0), (Call.unlock, 0)] ∧
      newMapOps dbPkg (doLogThrottle 9 4 ERROR 0 "net" "m" dbPkg) =
        [(MapOp.read "net", 1), (MapOp.write "net" 1, 1)] ∧
      (doLogThrottle 9 4 ERROR 0 "net" "m" dbPkg).toState = dbPkg.toState) := by
  have h := C20_lock_attempt_unlock_then_write 9 4 ERROR 7 "db" "m" dbPkg (by decide)
  have h2 := C20_lock_attempt_unlock_then_write 9 4 ERROR 0 "net" "m" dbPkg (by decide)
  have hp := h.2.1 0 (NewThrottler 2 (3600 * Second) 5) (by decide) (by decide)
  have ha := h2.1 (by decide)
  exact ⟨⟨hp.1.trans (by decide), hp.2.1,
      (congrArg (fun s : State => s.trace) hp.2.2).trans (by decide)⟩,
    ⟨ha.1.trans (by decide), ha.2.1.trans (by decide), ha.2.2.trans (by decide)⟩⟩

/-! ## Claims on the call depth -/

/-- C18 (the code at the failing input): `Log` (chain `Log`, `DoLog`, `DoLogFields`)
hands 4 to `Output`, `LogFieldsf` (chain `LogFieldsf`, `DoLogFields`) hands 3,
`LogThrottleKey` (chain of four) hands 5, and `LogP` and `LogPf`, which call `Output`
themselves (chain of one), hand 3 instead of 2. -/
theorem C18_LogP_depth_is_three :
    (Log goLib ERROR [Val.str "m"] warnState).trace =
      [Event.output Sink.primary stderrLogger 4 "[ERROR] m"] ∧
    (LogFieldsf goLib ERROR none "m" [] warnState).trace =
      [Event.output Sink.primary stderrLogger 3 "[ERROR] m"] ∧
    (LogThrottleKey goLib 0 ERROR 1 "k" "m" [] warnPkg).trace =
      [Event.output Sink.primary stderrLogger 5 "[ERROR] m"] ∧
    (LogP goLib ERROR "p " [Val.str "m"] warnState).trace =
      [Event.output Sink.primary stderrLogger 3 "p [ERROR] m"] ∧
    (LogPf goLib ERROR "p " "%s" [Val.str "m"] warnState).trace =
      [Event.output Sink.primary stderrLogger 3 "p [ERROR] m"] := by
  decide

/-- C19 (counterexample): `LogD(3, ...)` reaches `Output` with depth 4, as `DoLog(3, ...)`
does, and `LogThrottleD(3, ...)` as well: they pass 3 on, not 3 + 1. -/
theorem C19_LogD_passes_depth_unchanged_counterexample :
    (LogD goLib 3 ERROR [Val.str "m"] warnState).trace =
      [Event.output Sink.primary stderrLogger 4 "[ERROR] m"] ∧
    LogD goLib 3 ERROR [Val.str "m"] warnState = DoLog 3 ERROR "m" warnState ∧
    LogD goLib 3 ERROR [Val.str "m"] warnState ≠ DoLog (3 + 1) ERROR "m" warnState ∧
    (LogThrottleD goLib 0 3 ERROR 1 "m" [] warnPkg).trace =
      [Event.output Sink.primary stderrLogger 4 "[ERROR] m"] ∧
    LogThrottleD goLib 0 3 ERROR 1 "m" [] warnPkg ≠
      doLogThrottle 0 (3 + 1) ERROR 1 "m" "m" warnPkg ∧
    (doLogThrottle 0 3 ERROR 1 "m" "m" warnPkg).toState ≠
      DoLog (3 + 1) ERROR "m" warnPkg.toState := by
  decide

/-- C19 (amended): for every depth `d` with `d + 1` in the range of `int`, `DoLog`
passes `d + 1` to `DoLogFields` and an admitted `LogCtx` passes `d + 1` to `DoLog`;
an admitted `LogD` passes `d` itself to `DoLog`, an admitted `LogThrottleD` passes
`d` itself to `doLogThrottle`, and an admitted `doLogThrottle` whose attempt is
not skipped passes `d` itself to `DoLog`. -/
theorem C19_depth_forwarding (L : Lib) (ctx : Context) (now : Nat) (d lvl limit : Int)
    (key msg f : String) (v : List Val) (s : State) (r : Pkg)
    (hlo : -(2 ^ 63) ≤ d + 1) (hhi : d + 1 < 2 ^ 63) :
    DoLog d lvl msg s = DoLogFields (d + 1) lvl msg none s ∧
    (s.LogLevel ≥ lvl →
      LogCtx L ctx d lvl f v s =
        DoLog (d + 1) lvl
          (if FromContext ctx = "" then L.Sprintf f v
            else FromContext ctx ++ " " ++ L.Sprintf f v) s ∧
      LogD L d lvl v s = DoLog d lvl (L.Sprint v) s) ∧
    (r.LogLevel ≥ lvl →
      LogThrottleD L now d lvl limit f v r =
        doLogThrottle now d lvl limit f (L.Sprintf f v) r ∧
      ((doLogThrottle now d lvl limit key msg r).toState = r.toState ∨
        (doLogThrottle now d lvl limit key msg r).toState = DoLog d lvl msg r.toState) ∧
      (∀ p th, r.logThrottles.lookup key = some p → r.throttlers[p]? = some th →
        (th.Throttle now).1 = false →
        (doLogThrottle now d lvl limit key msg r).toState = DoLog d lvl msg r.toState)) := by
  have hw : wrapInt (d + 1) = d + 1 := wrapInt_of_bounds (d + 1) hlo hhi
  refine ⟨?_, ?_, ?_⟩
  · unfold DoLog
    rw [hw]
  · intro hl
    constructor
    · have hm := ctxFormat_eq ctx (L.Sprintf f v)
      unfold ctxFormat sprintfSS at hm
      unfold LogCtx sprintfSS
      rw [if_pos hl]
      simp only [] at hm ⊢
      rw [hm, hw]
    · unfold LogD
      rw [if_pos hl]
  · intro hl
    refine ⟨?_, ?_, ?_⟩
    · unfold LogThrottleD
      rw [if_neg (not_lt.mpr hl)]
    · exact doLogThrottle_toState_cases now d lvl limit key msg r hl
    · intro p th hk hp hskip
      rw [doLogThrottle_present now d lvl limit key msg r p th hl hk hp]
      simp [hskip]

theorem C19_depth_forwarding_witness :
    DoLog 3 ERROR "m" warnState = DoLogFields 4 ERROR "m" none warnState ∧
    LogD goLib 3 ERROR [Val.str "m"] warnState = DoLog 3 ERROR "m" warnState ∧
    (doLogThrottle 9 3 ERROR 7 "db" "m" dbPkg).toState = DoLog 3 ERROR "m" dbPkg.toState := by
  have h := C19_depth_forwarding goLib plainCtx 9 3 ERROR 7 "db" "m" "m" [Val.str "m"]
    warnState dbPkg (by decide) (by decide)
  exact ⟨h.1, (h.2.1 (by decide)).2,
    (h.2.2 (by decide)).2.2 0 (NewThrottler 2 (3600 * Second) 5) (by decide) (by decide)
      (by decide)⟩

/-! ## Lemmas on lines and newlines -/

theorem splitNL_ne_nil (cs : List Char) : splitNL cs ≠ [] := by
  cases cs with
  | nil => simp [splitNL]
  | cons c cs =>
    unfold splitNL
    split
    · simp
    · split <;> simp

theorem Join_cons_cons (a b : String) (rest : List String) (sep : String) :
    Join (a :: b :: rest) sep = a ++ sep ++ Join (b :: rest) sep := rfl

theorem Join_mk_cons (c : Char) (l : List Char) (rest : List String) (sep : String) :
    (Join (String.mk (c :: l) :: rest) sep).data = c :: (Join (String.mk l :: rest) sep).data := by
  cases rest with
  | nil => rfl
  | cons b rest => simp [Join_cons_cons, String.data_append]

theorem splitNL_cons_newline (cs : List Char) : splitNL ('\n' :: cs) = [] :: splitNL cs := by
  simp [splitNL]

theorem splitNL_cons_other (c : Char) (cs l : List Char) (ls : List (List Char))
    (hc : c ≠ '\n') (hl : splitNL cs = l :: ls) : splitNL (c :: cs) = (c :: l) :: ls := by
  simp [splitNL, hc, hl]

theorem escape_eq_join_split (cs : List Char) :
    (cs.flatMap fun c => if c = '\n' then ['\\', 'n'] else [c]) =
      (Join ((splitNL cs).map String.mk) "\\n").data := by
  induction cs with
  | nil => rfl
  | cons c cs ih =>
    rw [List.flatMap_cons, ih]
    obtain ⟨l, ls, hl⟩ := List.exists_cons_of_ne_nil (splitNL_ne_nil cs)
    by_cases hc : c = '\n'
    · subst hc
      rw [if_pos rfl, splitNL_cons_newline, hl]
      simp only [List.map_cons, Join_cons_cons, String.data_append]
      rfl
    · rw [if_neg hc, splitNL_cons_other c cs l ls hc hl, hl]
      simp only [List.map_cons, Join_mk_cons, List.singleton_append]

theorem escape_no_newline (cs : List Char) :
    '\n' ∉ (cs.flatMap fun c => if c = '\n' then ['\\', 'n'] else [c]) := by
  intro h
  rw [List.mem_flatMap] at h
  obtain ⟨c, _, hc⟩ := h
  by_cases hn : c = '\n'
  · rw [if_pos hn] at hc
    revert hc
    decide
  · rw [if_neg hn] at hc
    exact hn (List.mem_singleton.mp hc).symm

theorem escape_of_no_newline (cs : List Char) (h : '\n' ∉ cs) :
    (cs.flatMap fun c => if c = '\n' then ['\\', 'n'] else [c]) = cs := by
  induction cs with
  | nil => rfl
  | cons c cs ih =>
    have hc : c ≠ '\n' := fun e => h (by simp [e])
    have hcs : '\n' ∉ cs := fun e => h (List.mem_cons_of_mem _ e)
    rw [List.flatMap_cons, ih hcs, if_neg hc]
    rfl

theorem LogPrefixInit_no_newline (lvl : Int) : '\n' ∉ (LogPrefixInit.get lvl).data := by
  unfold IntMap.get LogPrefixInit
  simp only [List.lookup]
  repeat' split
  all_goals decide

/-! ## Claims on the newline escaping -/

/-- C16: `EscapeNewlines(s)` holds no newline; it is the pieces of `s` between its
newlines joined by backslash and n; it is `s` when `s` has no newline;
`EscapeNewlines("a\nb")` is a, backslash, n, b; and with newline escaping on, the
plain prefixes, an empty suffix and no custom sink, every line that `DoLogFields`
writes is `LogPrefix[lvl] + EscapeNewlines(msg)`, at the given depth, and holds
no newline. -/
theorem C16_escape_newlines (str : String) :
    '\n' ∉ (EscapeNewlines str).data ∧
    EscapeNewlines str = Join (Split str) "\\n" ∧
    ('\n' ∉ str.data → EscapeNewlines str = str) ∧
    EscapeNewlines "a\nb" = String.mk ['a', '\\', 'n', 'b'] ∧
    (∀ (depth lvl : Int) (fields : Fields) (s : State),
      s.customLogger = none → s.escapeNewlines = true → s.postFix = "" →
      s.LogPrefix = LogPrefixInit →
      ∀ e ∈ newEvents s (DoLogFields depth lvl str fields s),
        '\n' ∉ (LogPrefixInit.get lvl ++ EscapeNewlines str).data ∧
        ∃ via l, e = Event.output via l depth (LogPrefixInit.get lvl ++ EscapeNewlines str)) := by
  refine ⟨escape_no_newline str.data, ?_, ?_, by decide, ?_⟩
  · apply String.ext
    exact escape_eq_join_split str.data
  · intro h
    apply String.ext
    exact escape_of_no_newline str.data h
  · intro depth lvl fields s hc hesc hpost hpre e he
    constructor
    · rw [String.data_append, List.mem_append]
      rintro (h | h)
      · exact LogPrefixInit_no_newline lvl h
      · exact escape_no_newline str.data h
    · by_cases hE : s.ErrLogLevel ≥ lvl ∧ s.loggerErr ≠ none
      · obtain ⟨le, hle⟩ := Option.ne_none_iff_exists'.mp hE.2
        rw [DoLogFields_err depth lvl str fields s le hc hE.1 hle, newEvents_append] at he
        rw [List.mem_singleton] at he
        exact ⟨Sink.err, le, by rw [he, hesc, hpost, hpre]; simp⟩
      · by_cases hP : s.LogLevel ≥ lvl ∧ s.logger ≠ none
        · obtain ⟨lg, hlg⟩ := Option.ne_none_iff_exists'.mp hP.2
          rw [DoLogFields_primary depth lvl str fields s lg hc hE hP.1 hlg,
            newEvents_append] at he
          rw [List.mem_singleton] at he
          exact ⟨Sink.primary, lg, by rw [he, hesc, hpost, hpre]; simp⟩
        · rw [DoLogFields_drop depth lvl str fields s hc hE hP, newEvents_self] at he
          cases he

theorem C16_escape_newlines_witness :
    newEvents escapeState (DoLogFields 4 ERROR "a\nb" none escapeState) =
      [Event.output Sink.primary stderrLogger 4 "[ERROR] a\\nb"] ∧
    '\n' ∉ (LogPrefixInit.get ERROR ++ EscapeNewlines "a\nb").data := by
  have h := (C16_escape_newlines "a\nb").2.2.2.2 4 ERROR none escapeState rfl rfl rfl rfl
    (Event.output Sink.primary stderrLogger 4 "[ERROR] a\\nb") (by decide)
  exact ⟨by decide, h.1⟩

/-! ## Lemmas on the stack formatter -/

theorem foldl_keep_eq_filter (g : Nat → String) (idx : List Nat) (acc : List String) :
    idx.foldl (fun parts2 i => if keepLine (g i) then parts2 ++ [g i] else parts2) acc =
      acc ++ (idx.map g).filter keepLine := by
  induction idx generalizing acc with
  | nil => simp
  | cons i idx ih =>
    rw [List.foldl_cons, ih, List.map_cons, List.filter_cons]
    by_cases h : keepLine (g i) = true
    · simp [h]
    · simp [h]

theorem map_getD_rangeFrom (l : List String) (d : String) (k a : Nat)
    (h : k ≠ 0 → a + k ≤ l.length) :
    (List.range' a k).map (fun i => l.getD i d) = (l.drop a).take k := by
  induction k generalizing a with
  | zero => simp
  | succ k ih =>
    have ha : a < l.length := by
      have := h (Nat.succ_ne_zero k)
      omega
    rw [List.range'_succ, List.map_cons, ih (a + 1) (fun _ => by have := h (Nat.succ_ne_zero k); omega),
      List.drop_eq_getElem_cons ha, List.take_succ_cons, List.getD_eq_getElem l d ha]

theorem examined_eq (parts : List String) :
    (List.range' 3 ((parts.drop 2).length - 1 - 3)).map (fun i => (parts.drop 2).getD i "") =
      (parts.drop 5).dropLast := by
  rw [map_getD_rangeFrom (parts.drop 2) "" _ 3 (by intro h; omega), List.drop_drop,
    List.dropLast_eq_take, List.length_drop, List.length_drop]
  congr 1

theorem goSlice_zero_nat {α : Type} (a : List α) (n : Nat) (h : n ≤ a.length) :
    goSlice a 0 (n : Int) = some (a.take n) := by
  unfold goSlice
  rw [if_pos ⟨le_refl 0, Int.natCast_nonneg n, by exact_mod_cast h⟩]
  simp

theorem PrettyStack_long (stack : String) (lineCt : Nat) (h : (Split stack).length > 3) :
    PrettyStack stack lineCt =
      some (Join (((examinedLines stack).filter keepLine).take lineCt) "\n") := by
  unfold PrettyStack examinedLines
  simp only [h, if_true]
  rw [foldl_keep_eq_filter (fun i => ((Split stack).drop 2).getD i "") _ [],
    examined_eq, List.nil_append]
  by_cases hlen : ((((Split stack).drop 5).dropLast.filter keepLine).length : Int) > (lineCt : Int)
  · rw [if_pos hlen, goSlice_zero_nat _ lineCt (by exact_mod_cast le_of_lt hlen)]
    rfl
  · rw [if_neg hlen, List.take_of_length_le (by exact_mod_cast not_lt.mp hlen)]

theorem PrettyStack_short (stack : String) (lineCt : Int) (h : (Split stack).length ≤ 3) :
    PrettyStack stack lineCt = some stack := by
  unfold PrettyStack
  simp only [not_lt.mpr h, if_false]

/-! ## Claims on the stack formatter -/

/-- C15 (counterexample): a text of two lines is returned as it is, with its line
ending in ")" and more lines than `lineCt = 0`; and on a text of seven lines the
last line, which is a kept kind of line after the leading five, is not
returned. -/
theorem C15_short_trace_and_last_line_counterexample :
    PrettyStack "main.main()\nx" 0 = some "main.main()\nx" ∧
    HasSuffix "main.main()" ")" = true ∧
    PrettyStack "a\nb\nc\nd\ne\nf\ng" 5 = some "f" ∧
    ((Split "a\nb\nc\nd\ne\nf\ng").drop 5).filter keepLine = ["f", "g"] ∧
    PrettyStack "a\nb\nc\nd\ne\nf\ng" 5 ≠
      some (Join ((((Split "a\nb\nc\nd\ne\nf\ng").drop 5).filter keepLine).take 5) "\n") := by
  decide

/-- C15 (amended): for `lineCt >= 0`, a text that splits into at most three lines is
returned as it is; for a text of more lines `PrettyStack(lineCt)` returns, joined by
newlines, the first `min(lineCt, k)` of the `k` kept lines among the examined ones,
which are the lines after the first five and before the last piece of the text.
The lines returned are at most `lineCt`, they are lines of the text in their
order, and none ends with ")" or starts with "/usr/local". -/
theorem C15_pretty_stack_lines (stack : String) (lineCt : Nat) :
    ((Split stack).length ≤ 3 → PrettyStack stack lineCt = some stack) ∧
    ((Split stack).length > 3 →
      PrettyStack stack lineCt =
        some (Join (((examinedLines stack).filter keepLine).take lineCt) "\n") ∧
      (((examinedLines stack).filter keepLine).take lineCt).length =
        min lineCt ((examinedLines stack).filter keepLine).length ∧
      (((examinedLines stack).filter keepLine).take lineCt).length ≤ lineCt ∧
      (((examinedLines stack).filter keepLine).take lineCt).Sublist (Split stack) ∧
      (∀ line ∈ ((examinedLines stack).filter keepLine).take lineCt,
        HasSuffix line ")" = false ∧ HasPrefix line "/usr/local" = false) ∧
      (((examinedLines stack).filter keepLine).length ≤ lineCt →
        PrettyStack stack lineCt =
          some (Join ((examinedLines stack).filter keepLine) "\n"))) := by
  refine ⟨fun h => PrettyStack_short stack lineCt h, fun h => ⟨PrettyStack_long stack lineCt h,
    List.length_take _ _, ?_, ?_, ?_, ?_⟩⟩
  · rw [List.length_take]
    exact min_le_left _ _
  · exact ((List.take_sublist _ _).trans (List.filter_sublist _)).trans
      ((List.dropLast_sublist _).trans (List.drop_sublist _ _))
  · intro line hline
    have hmem := List.mem_of_mem_take hline
    have hk := (List.mem_filter.mp hmem).2
    unfold keepLine at hk
    simpa using hk
  · intro hle
    rw [PrettyStack_long stack lineCt h, List.take_of_length_le hle]

theorem C15_pretty_stack_lines_witness :
    PrettyStack sampleStack 1 = some "\t/src/app/main.go:20 +0x1d" ∧
    PrettyStack sampleStack 5 =
      some "\t/src/app/main.go:20 +0x1d\n\t/src/app/main.go:9 +0x17" ∧
    PrettyStack "one\ntwo" 4 = some "one\ntwo" := by
  have h1 := (C15_pretty_stack_lines sampleStack 1).2 (by decide)
  have h5 := (C15_pretty_stack_lines sampleStack 5).2 (by decide)
  have h0 := (C15_pretty_stack_lines "one\ntwo" 4).1 (by decide)
  exact ⟨h1.1.trans (by decide), (h5.2.2.2.2.2 (by decide)).trans (by decide), h0⟩

/-- C17 (the code at the failing input): with a negative `lineCt` the slice
`parts2[0:lineCt]` of `PrettyStack` and the slice `parts[3 : 3+lineCt]` of `LogTraceDf`
are out of range, so `PrettyStack(-1)`, `DebugT(-1)`, `InfoT(-1)`, `WarnT(-1)` and
`LogTraceDf(ERROR, -1, ...)` panic on an ordinary stack text; with `lineCt = 2` they
return. On a text of two lines the slice `parts[3:]` of `LogTracef` and `LogTraceDf`
is out of range as well. -/
theorem C17_negative_lineCt_panics :
    PrettyStack sampleStack (-1) = none ∧
    DebugT goLib sampleStack (-1) debugState = none ∧
    InfoT goLib sampleStack (-1) debugState = none ∧
    WarnT goLib sampleStack (-1) debugState = none ∧
    LogTraceDf goLib sampleStack ERROR (-1) "f" [] debugState = none ∧
    (DebugT goLib sampleStack 2 debugState).isSome = true ∧
    (LogTraceDf goLib sampleStack ERROR 2 "f" [] debugState).isSome = true ∧
    (LogTracef goLib sampleStack ERROR "f" [] debugState).isSome = true ∧
    LogTracef goLib "x\ny" ERROR "f" [] debugState = none ∧
    LogTraceDf goLib "x\ny" ERROR 2 "f" [] debugState = none := by
  decide

/-! ## Lemmas on the throttle bound -/

theorem Throttle_in_window (N t0 c now : Nat) (h : now < t0 + 3600 * Second) :
    (Throttler.Throttle { limit := N, window := 3600 * Second, start := t0, count := c } now) =
      if c < N then
        (false, { limit := N, window := 3600 * Second, start := t0, count := c + 1 })
      else (true, { limit := N, window := 3600 * Second, start := t0, count := c }) := by
  unfold Throttler.Throttle
  simp only [ge_iff_le, not_le.mpr h, if_false, Nat.cast_lt]

theorem Throttle_after_window (N t0 c now : Nat) (h : now ≥ t0 + 3600 * Second) (hN : 1 ≤ N) :
    (Throttler.Throttle { limit := N, window := 3600 * Second, start := t0, count := c } now) =
      (false, { limit := N, window := 3600 * Second, start := now, count := 1 }) := by
  unfold Throttler.Throttle
  have h0 : ((0 : Nat) : Int) < (N : Int) := by exact_mod_cast hN
  simp only [ge_iff_le, h, if_true, h0]

theorem passed_append (r : Pkg) (p n : Nat) (skip : Bool) :
    ((r.calls ++ [(Call.lock, n), (Call.throttle p skip, n), (Call.unlock, n)]).filter
      fun c => c.1.isPass).length = r.passed + (if skip = true then 0 else 1) := by
  cases skip <;> simp [Pkg.passed, List.filter_append, List.filter_cons, Call.isPass]

theorem doLogThrottle_step (now : Nat) (depth lvl limit : Int) (key msg : String) (r : Pkg)
    (N t0 c : Nat) (hl : r.LogLevel ≥ lvl) (hw : KeyWindow key N t0 c r)
    (hnow : now < t0 + 3600 * Second) :
    (doLogThrottle now depth lvl limit key msg r).LogLevel = r.LogLevel ∧
    r.trace.length ≤ (doLogThrottle now depth lvl limit key msg r).trace.length ∧
    ((c < N ∧ KeyWindow key N t0 (c + 1) (doLogThrottle now depth lvl limit key msg r) ∧
        (doLogThrottle now depth lvl limit key msg r).trace.length ≤ r.trace.length + 1 ∧
        (doLogThrottle now depth lvl limit key msg r).passed = r.passed + 1) ∨
      (¬ c < N ∧ KeyWindow key N t0 c (doLogThrottle now depth lvl limit key msg r) ∧
        (doLogThrottle now depth lvl limit key msg r).trace.length = r.trace.length ∧
        (doLogThrottle now depth lvl limit key msg r).passed = r.passed)) := by
  obtain ⟨p, hk, hp⟩ := hw
  have hlt : p < r.throttlers.length := by
    rcases Nat.lt_or_ge p r.throttlers.length with h | h
    · exact h
    · rw [List.getElem?_eq_none h] at hp
      cases hp
  by_cases hc : c < N
  · have hdo : doLogThrottle now depth lvl limit key msg r =
        { r with
          toState := DoLog depth lvl msg r.toState
          throttlers := r.throttlers.set p
            { limit := N, window := 3600 * Second, start := t0, count := c + 1 }
          calls := r.calls ++ [(Call.lock, r.trace.length),
            (Call.throttle p false, r.trace.length), (Call.unlock, r.trace.length)]
          mapOps := r.mapOps ++ [(MapOp.read key, r.calls.length + 1)] } := by
      rw [doLogThrottle_present now depth lvl limit key msg r p _ hl hk hp,
        Throttle_in_window N t0 c now hnow, if_pos hc]
      simp
    rw [hdo]
    refine ⟨DoLog_LogLevel depth lvl msg r.toState, (DoLog_trace_length depth lvl msg r.toState).1,
      Or.inl ⟨hc, ⟨p, hk, ?_⟩, (DoLog_trace_length depth lvl msg r.toState).2, ?_⟩⟩
    · simp [List.getElem?_set, hlt]
    · simp only [Pkg.passed]
      rw [passed_append r p _ false]
      rfl
  · have hdo : doLogThrottle now depth lvl limit key msg r =
        { r with
          throttlers := r.throttlers.set p
            { limit := N, window := 3600 * Second, start := t0, count := c }
          calls := r.calls ++ [(Call.lock, r.trace.length),
            (Call.throttle p true, r.trace.length), (Call.unlock, r.trace.length)]
          mapOps := r.mapOps ++ [(MapOp.read key, r.calls.length + 1)] } := by
      rw [doLogThrottle_present now depth lvl limit key msg r p _ hl hk hp,
        Throttle_in_window N t0 c now hnow, if_neg hc]
      simp
    rw [hdo]
    refine ⟨rfl, le_refl _, Or.inr ⟨hc, ⟨p, hk, ?_⟩, rfl, ?_⟩⟩
    · simp [List.getElem?_set, hlt]
    · simp only [Pkg.passed]
      rw [passed_append r p _ true]
      rfl

theorem doLogThrottle_first (now : Nat) (depth lvl : Int) (key msg : String) (r : Pkg)
    (N : Nat) (hl : r.LogLevel ≥ lvl) (hk : r.logThrottles.lookup key = none) :
    (doLogThrottle now depth lvl N key msg r).LogLevel = r.LogLevel ∧
    r.trace.length ≤ (doLogThrottle now depth lvl N key msg r).trace.length ∧
    ((0 < N ∧ KeyWindow key N now 1 (doLogThrottle now depth lvl N key msg r) ∧
        (doLogThrottle now depth lvl N key msg r).trace.length ≤ r.trace.length + 1 ∧
        (doLogThrottle now depth lvl N key msg r).passed = r.passed + 1) ∨
      (¬ 0 < N ∧ KeyWindow key N now 0 (doLogThrottle now depth lvl N key msg r) ∧
        (doLogThrottle now depth lvl N key msg r).trace.length = r.trace.length ∧
        (doLogThrottle now depth lvl N key msg r).passed = r.passed)) := by
  have hW : now < now + 3600 * Second := by
    have : 0 < 3600 * Second := by decide
    omega
  have hnew : NewThrottler (N : Int) (3600 * Second) now =
      { limit := N, window := 3600 * Second, start := now, count := 0 } := rfl
  by_cases hc : 0 < N
  · have hdo : doLogThrottle now depth lvl N key msg r =
        { r with
          toState := DoLog depth lvl msg r.toState
          logThrottles := (key, r.throttlers.length) :: r.logThrottles
          throttlers := r.throttlers ++
            [{ limit := N, window := 3600 * Second, start := now, count := 0 + 1 }]
          calls := r.calls ++ [(Call.lock, r.trace.length),
            (Call.throttle r.throttlers.length false, r.trace.length),
            (Call.unlock, r.trace.length)]
          mapOps := r.mapOps ++ [(MapOp.read key, r.calls.length + 1),
            (MapOp.write key r.throttlers.length, r.calls.length + 1)] } := by
      rw [doLogThrottle_absent now depth lvl N key msg r hl hk, hnew,
        Throttle_in_window N now 0 now hW, if_pos hc]
      simp
    rw [hdo]
    refine ⟨DoLog_LogLevel depth lvl msg r.toState, (DoLog_trace_length depth lvl msg r.toState).1,
      Or.inl ⟨hc, ⟨r.throttlers.length, ?_, ?_⟩,
        (DoLog_trace_length depth lvl msg r.toState).2, ?_⟩⟩
    · simp [List.lookup]
    · simp
    · simp only [Pkg.passed]
      rw [passed_append r _ _ false]
      rfl
  · have hdo : doLogThrottle now depth lvl N key msg r =
        { r with
          logThrottles := (key, r.throttlers.length) :: r.logThrottles
          throttlers := r.throttlers ++
            [{ limit := N, window := 3600 * Second, start := now, count := 0 }]
          calls := r.calls ++ [(Call.lock, r.trace.length),
            (Call.throttle r.throttlers.length true, r.trace.length),
            (Call.unlock, r.trace.length)]
          mapOps := r.mapOps ++ [(MapOp.read key, r.calls.length + 1),
            (MapOp.write key r.throttlers.length, r.calls.length + 1)] } := by
      rw [doLogThrottle_absent now depth lvl N key msg r hl hk, hnew,
        Throttle_in_window N now 0 now hW, if_neg hc]
      simp
    rw [hdo]
    refine ⟨rfl, le_refl _, Or.inr ⟨hc, ⟨r.throttlers.length, ?_, ?_⟩, rfl, ?_⟩⟩
    · simp [List.lookup]
    · simp
    · simp only [Pkg.passed]
      rw [passed_append r _ _ true]
      rfl

theorem LogThrottleKey_admitted (L : Lib) (now : Nat) (lvl limit : Int) (key f : String)
    (v : List Val) (r : Pkg) (hl : r.LogLevel ≥ lvl) :
    LogThrottleKey L now lvl limit key f v r =
      doLogThrottle now 4 lvl limit key (L.Sprintf f v) r := by
  unfold LogThrottleKey
  rw [if_neg (not_lt.mpr hl)]

theorem runThrottleKey_bound (L : Lib) (lvl limit : Int) (key : String) (N t0 : Nat)
    (cs : List (Nat × String × List Val)) :
    ∀ (r : Pkg) (c : Nat), r.LogLevel ≥ lvl → KeyWindow key N t0 c r → c ≤ N →
      (∀ x ∈ cs, x.1 < t0 + 3600 * Second) →
      ∃ c1, c1 ≤ N ∧ KeyWindow key N t0 c1 (runThrottleKey L lvl limit key cs r) ∧
        (runThrottleKey L lvl limit key cs r).LogLevel = r.LogLevel ∧
        r.trace.length ≤ (runThrottleKey L lvl limit key cs r).trace.length ∧
        (runThrottleKey L lvl limit key cs r).trace.length + c ≤ r.trace.length + c1 ∧
        (runThrottleKey L lvl limit key cs r).passed + c = r.passed + c1 := by
  induction cs with
  | nil =>
    intro r c _ hw hc _
    exact ⟨c, hc, hw, rfl, le_refl _, le_refl _, rfl⟩
  | cons x cs ih =>
    intro r c hl hw hc hwin
    have hx : x.1 < t0 + 3600 * Second := hwin x (List.mem_cons_self _ _)
    have hrest : ∀ y ∈ cs, y.1 < t0 + 3600 * Second :=
      fun y hy => hwin y (List.mem_cons_of_mem _ hy)
    have hrun : runThrottleKey L lvl limit key (x :: cs) r =
        runThrottleKey L lvl limit key cs
          (doLogThrottle x.1 4 lvl limit key (L.Sprintf x.2.1 x.2.2) r) := by
      rw [← LogThrottleKey_admitted L x.1 lvl limit key x.2.1 x.2.2 r hl]
      rfl
    rw [hrun]
    obtain ⟨hLL, hmono, hcase⟩ :=
      doLogThrottle_step x.1 4 lvl limit key (L.Sprintf x.2.1 x.2.2) r N t0 c hl hw hx
    rcases hcase with ⟨hlt, hw1, htr, hpa⟩ | ⟨_, hw1, htr, hpa⟩
    · obtain ⟨c1, hc1, hwf, hLL1, hm1, ht1, hp1⟩ :=
        ih _ (c + 1) (by rw [hLL]; exact hl) hw1 hlt hrest
      exact ⟨c1, hc1, hwf, by rw [hLL1, hLL], by omega, by omega, by omega⟩
    · obtain ⟨c1, hc1, hwf, hLL1, hm1, ht1, hp1⟩ :=
        ih _ c (by rw [hLL]; exact hl) hw1 hc hrest
      exact ⟨c1, hc1, hwf, by rw [hLL1, hLL], by omega, by omega, by omega⟩

/-! ## Claims on the throttle bound -/

/-- C12: with the window limiter, for a key that is not registered and calls
`LogThrottleKey(lvl, N, key, ...)` admitted by the threshold, the first at time `t0`
and the others before `t0` plus one hour: the sink calls made by the whole
sequence are at most `N`, and so are the attempts the limiter let through; a
further call at or after `t0` plus one hour, with `N >= 1`, is let through and
reaches the dispatcher. -/
theorem C12_throttle_bound (L : Lib) (lvl : Int) (N : Nat) (key : String) (t0 : Nat)
    (f0 : String) (v0 : List Val) (rest : List (Nat × String × List Val)) (r : Pkg)
    (hadm : r.LogLevel ≥ lvl) (hkey : r.logThrottles.lookup key = none)
    (hwin : ∀ x ∈ rest, x.1 < t0 + 3600 * Second) :
    (newEvents r.toState
      (runThrottleKey L lvl N key ((t0, f0, v0) :: rest) r).toState).length ≤ N ∧
    (runThrottleKey L lvl N key ((t0, f0, v0) :: rest) r).passed ≤ r.passed + N ∧
    (∀ (t : Nat) (f : String) (v : List Val), t ≥ t0 + 3600 * Second → 1 ≤ N →
      (LogThrottleKey L t lvl N key f v
          (runThrottleKey L lvl N key ((t0, f0, v0) :: rest) r)).toState =
        DoLog 4 lvl (L.Sprintf f v)
          (runThrottleKey L lvl N key ((t0, f0, v0) :: rest) r).toState ∧
      (LogThrottleKey L t lvl N key f v
          (runThrottleKey L lvl N key ((t0, f0, v0) :: rest) r)).passed =
        (runThrottleKey L lvl N key ((t0, f0, v0) :: rest) r).passed + 1) := by
  have hrun : runThrottleKey L lvl N key ((t0, f0, v0) :: rest) r =
      runThrottleKey L lvl N key rest (doLogThrottle t0 4 lvl N key (L.Sprintf f0 v0) r) := by
    rw [← LogThrottleKey_admitted L t0 lvl N key f0 v0 r hadm]
    rfl
  obtain ⟨hLL, hmono, hcase⟩ := doLogThrottle_first t0 4 lvl key (L.Sprintf f0 v0) r N hadm hkey
  have hmain : ∃ c1, c1 ≤ N ∧
      KeyWindow key N t0 c1 (runThrottleKey L lvl N key ((t0, f0, v0) :: rest) r) ∧
      (runThrottleKey L lvl N key ((t0, f0, v0) :: rest) r).LogLevel = r.LogLevel ∧
      (runThrottleKey L lvl N key ((t0, f0, v0) :: rest) r).trace.length ≤
        r.trace.length + c1 ∧
      (runThrottleKey L lvl N key ((t0, f0, v0) :: rest) r).passed ≤ r.passed + c1 := by
    rw [hrun]
    rcases hcase with ⟨hlt, hw1, htr, hpa⟩ | ⟨_, hw1, htr, hpa⟩
    · obtain ⟨c1, hc1, hwf, hLL1, hm1, ht1, hp1⟩ :=
        runThrottleKey_bound L lvl N key N t0 rest _ 1 (by rw [hLL]; exact hadm) hw1 hlt hwin
      exact ⟨c1, hc1, hwf, by rw [hLL1, hLL], by omega, by omega⟩
    · obtain ⟨c1, hc1, hwf, hLL1, hm1, ht1, hp1⟩ :=
        runThrottleKey_bound L lvl N key N t0 rest _ 0 (by rw [hLL]; exact hadm) hw1
          (Nat.zero_le N) hwin
      exact ⟨c1, hc1, hwf, by rw [hLL1, hLL], by omega, by omega⟩
  obtain ⟨c1, hc1, hwf, hLLf, htrf, hpaf⟩ := hmain
  refine ⟨?_, by omega, ?_⟩
  · simp only [newEvents, List.length_drop]
    omega
  · intro t f v ht hN
    obtain ⟨p, hk, hp⟩ := hwf
    have hl2 : (runThrottleKey L lvl N key ((t0, f0, v0) :: rest) r).LogLevel ≥ lvl := by
      rw [hLLf]
      exact hadm
    rw [LogThrottleKey_admitted L t lvl N key f v _ hl2,
      doLogThrottle_present t 4 lvl N key (L.Sprintf f v) _ p _ hl2 hk hp,
      Throttle_after_window N t0 c1 t ht hN, if_neg (by simp)]
    refine ⟨rfl, ?_⟩
    simp only [Pkg.passed]
    rw [passed_append _ p _ false]
    rfl

theorem C12_throttle_bound_witness :
    (newEvents warnPkg.toState
      (runThrottleKey goLib ERROR 1 "k" [(0, "a", []), (10, "b", []), (20, "c", [])]
        warnPkg).toState).length ≤ 1 ∧
    (runThrottleKey goLib ERROR 1 "k" [(0, "a", []), (10, "b", []), (20, "c", [])]
      warnPkg).passed ≤ warnPkg.passed + 1 := by
  have h := C12_throttle_bound goLib ERROR 1 "k" 0 "a" [] [(10, "b", []), (20, "c", [])] warnPkg
    (by decide) (by decide) (by decide)
  exact ⟨h.1, h.2.1⟩

end Gou
